import Mathlib

/-!
Verification development for the ClaudeBot task-orchestration engine.

The Python source (orchestrator.py, db.py, tools/delegation.py, router.py,
context.py, config.py) is shallowly embedded below.  Conventions:

* Monetary amounts (Python floats) are modelled as exact rationals; no claim
  under consideration depends on floating-point rounding.
* The SQLite task table is a list of task records; `UPDATE ... WHERE id`
  becomes a map over the list guarded by the id.
* The cost log is represented by its only consumed aggregate, the running
  daily total (`get_daily_cost`), carried in the loop state; `db.log_cost`
  adds the call cost both to the owning task and to that total.  Timestamps,
  Discord message ids and the keyword tags of session memories are elided:
  no claim mentions them.
* External collaborators (the Anthropic client, the tool implementations,
  the classifier call, file reads and memory search used when assembling
  initial messages, and the recursive `run_subtask` child execution) are
  supplied through an `Env` record, mirroring the interface boundary of the
  spec.  The reasoning service is a per-node stream of outcomes, each either
  a response or a raised fault.
* Decimal rendering of Python f-strings (`:.2f`, `:.4f`) is abstracted to
  `toString` on rationals; no claim inspects the rendered digits.
-/

namespace ClaudeBot

/-- Monetary amounts in USD, modelled exactly. -/
abbrev Money := Rat

/-! ## Configuration constants (config.py) -/

def MAX_DELEGATION_DEPTH : Nat := 3

def MAX_SUBTASK_BUDGET : Money := 1

def MIN_SUBTASK_BUDGET : Money := 1/100

def MAX_SUBTASKS_PER_TASK : Nat := 15

def DEFAULT_TASK_BUDGET : Money := 1

def MAX_TASK_BUDGET : Money := 20

def COST_LIMIT_DAILY : Money := 20

/-- Per-depth step ceilings: `STEPS_BY_DEPTH = {0: 20, 1: 10, 2: 6, 3: 3}`
with `.get(depth, 3)` default. -/
def STEPS_BY_DEPTH : Nat → Nat
  | 0 => 20
  | 1 => 10
  | 2 => 6
  | _ => 3

/-! ## Character-list utilities

Python string operations used by the source (`in` substring test, `.lower()`,
`startswith`-style discrimination) are modelled on `List Char`. -/

/-- Apostrophe character, used inside uncertainty-marker strings. -/
def apos : String := String.mk [Char.ofNat 39]

/-- Whether `p` is an initial segment of `l` (Python `startswith`). -/
def startsWithList : List Char → List Char → Bool
  | [], _ => true
  | _ :: _, [] => false
  | a :: as, b :: bs => a == b && startsWithList as bs

/-- Whether `needle` occurs contiguously inside `hay` (Python `in`). -/
def containsSub (needle : List Char) : List Char → Bool
  | [] => startsWithList needle []
  | c :: t => startsWithList needle (c :: t) || containsSub needle t

/-- Python `str.lower()` restricted to the ASCII range used by the source. -/
def lowerStr (s : String) : List Char := s.data.map Char.toLower

/-! ## Data model (db.py `tasks` table) -/

inductive Status where
  | queued
  | classifying
  | in_progress
  | checkpoint
  | completed
  | failed
  | stalled
deriving DecidableEq, Repr

inductive ModelId where
  | haiku
  | sonnet
  | sonnetLatest
deriving DecidableEq, Repr

inductive Role where
  | planner
  | worker
deriving DecidableEq, Repr

structure Task where
  id : Nat
  status : Status
  description : String
  model : Option ModelId
  step_count : Nat
  max_steps : Nat
  token_cost : Money
  input_tokens : Nat
  output_tokens : Nat
  result : Option String
  error : Option String
  parent_task_id : Option Nat
  depth : Nat
  budget : Money
deriving DecidableEq, Repr

abbrev DB := List Task

/-- db.get_task: first row with the given id. -/
def get_task (db : DB) (id : Nat) : Option Task :=
  db.find? (fun t => t.id == id)

/-- db.update_task: update the fields of every row with the given id
(ids are unique in the real table; the map form is its list counterpart). -/
def update_task (db : DB) (id : Nat) (f : Task → Task) : DB :=
  db.map (fun t => if t.id = id then f t else t)

/-- db.create_task: a fresh record (status queued, zero counters). -/
def create_task (id : Nat) (description : String) (max_steps : Nat)
    (budget : Money) (depth : Nat) (parent_task_id : Option Nat) : Task :=
  { id := id
    status := Status.queued
    description := description
    model := none
    step_count := 0
    max_steps := max_steps
    token_cost := 0
    input_tokens := 0
    output_tokens := 0
    result := none
    error := none
    parent_task_id := parent_task_id
    depth := depth
    budget := budget }

/-- db.get_subtask_count: number of direct children of a parent. -/
def get_subtask_count (db : DB) (parent_task_id : Nat) : Nat :=
  (db.filter (fun t => t.parent_task_id == some parent_task_id)).length

/-- db.get_stale_tasks: rows stuck in in_progress. -/
def get_stale_tasks (db : DB) : List Task :=
  db.filter (fun t => t.status == Status.in_progress)

/-- db.cascade_cost_to_parent, inner while loop.  The Python loop walks the
parent chain until a missing row or a null parent; the fuel argument bounds
the walk (the source diverges on a cyclic chain, a case excluded by the
acyclicity hypotheses of the theorems below). -/
def cascade_aux (cost : Money) : Nat → DB → Nat → DB
  | 0, db, _ => db
  | fuel + 1, db, current =>
    match get_task db current with
    | none => db
    | some t =>
      match t.parent_task_id with
      | none => db
      | some pid =>
        cascade_aux cost fuel
          (update_task db pid (fun p => { p with token_cost := p.token_cost + cost })) pid

/-- db.cascade_cost_to_parent: walk up the parent chain adding `cost` to
each ancestor. -/
def cascade_cost_to_parent (db : DB) (child_task_id : Nat) (cost : Money) : DB :=
  cascade_aux cost db.length db child_task_id

/-! ## Conversation and response model (anthropic message shapes) -/

/-- The sub-agent spawn request carried by a `delegate_task` tool call
(tools/delegation.py input schema). -/
structure DelegateInput where
  task_description : String
  expected_output : String
  budget_usd : Money
  context_files : Option (List String)
deriving DecidableEq, Repr

/-- Arguments of a tool invocation: either a well-formed delegation payload
or an opaque payload for the other tools.  A `delegate_task` call carrying an
`other` payload models a request missing the schema-required keys, which in
the source raises `KeyError` inside `handle_delegation`. -/
inductive ToolArg where
  | delegation (d : DelegateInput)
  | other (payload : String)
deriving DecidableEq, Repr

structure ToolUse where
  id : String
  name : String
  arg : ToolArg
deriving DecidableEq, Repr

/-- A content block of an assistant response (text or tool_use). -/
inductive Block where
  | text (s : String)
  | toolUse (tu : ToolUse)
deriving DecidableEq, Repr

inductive StopReason where
  | end_turn
  | tool_use
  | max_tokens
deriving DecidableEq, Repr

/-- One reasoning-service response: ordered content blocks, a stop signal
and the token usage of the call. -/
structure ApiResponse where
  content : List Block
  stop_reason : StopReason
  input_tokens : Nat
  output_tokens : Nat
deriving DecidableEq, Repr

/-- Outcome of one reasoning-service call: a response, or a raised fault
caught at the loop boundary. -/
inductive RespOutcome where
  | ok (r : ApiResponse)
  | fault (msg : String)
deriving DecidableEq, Repr

/-- One turn of the conversation sent to the reasoning service.  `user` and
`assistantText` carry plain strings (initial description and injected
context), `assistant` carries the raw content blocks of a model response,
and `userToolResults` is the combined tool_result turn (pairs of
tool_use_id and result text). -/
inductive Msg where
  | user (content : String)
  | assistantText (content : String)
  | assistant (content : List Block)
  | userToolResults (results : List (String × String))
deriving DecidableEq, Repr

/-- orchestrator.TaskResult. -/
structure TaskResult where
  task_id : Nat
  status : Status
  response : String
  needs_checkpoint : Bool
  checkpoint_reason : String
  conversation_history : Option (List Msg)
deriving DecidableEq, Repr

/-- Session memory summary persisted on completion of a depth-0 node
(keyword tags elided; no claim mentions them). -/
structure SessionMemory where
  task_id : Nat
  description : String
  result : String
  model : ModelId
  steps : Nat
  role : Role
deriving DecidableEq, Repr

/-- Mutable world threaded through the engine: the task table, the running
daily cost aggregate of the cost log, and the session-memory store. -/
structure LoopSt where
  db : DB
  daily : Money
  memories : List SessionMemory
deriving DecidableEq, Repr

/-- External collaborators, at the interface boundary of the spec:
tool execution, the recursive child run (`run_subtask`, the recursion seam
between the execution loop and the delegation engine), the classifier pick
for workers, and the externally-read context injected into initial messages
(long-term memory search results and context-file contents). -/
structure Env where
  execTool : String → ToolArg → LoopSt → String × LoopSt
  runSubtask : String → Nat → Nat → Money → Option (List String) → LoopSt → TaskResult × LoopSt
  classifyModel : String → ModelId
  longTermContext : String → Option String
  readContextBlock : List String → String

/-! ## Pure helpers from orchestrator.py and router.py -/

/-- router.calculate_cost over the PRICING table, input price per MTok. -/
def model_input_price : ModelId → Money
  | ModelId.haiku => 4/5
  | _ => 3

/-- router.calculate_cost over the PRICING table, output price per MTok. -/
def model_output_price : ModelId → Money
  | ModelId.haiku => 4
  | _ => 15

/-- router.calculate_cost. -/
def calculate_cost (model : ModelId) (input_tokens output_tokens : Nat) : Money :=
  (input_tokens : Money) / 1000000 * model_input_price model
    + (output_tokens : Money) / 1000000 * model_output_price model

/-- orchestrator._BUDGET_RE applied to the description, greedy scan for
`$ digits [. digits] whitespace+`; returns the parsed decimal and the text
after the matched whitespace run.  Greedy scanning is equivalent to the
regex here: any backtracked end position of `\d+\.?\d*` is followed by a
digit or a dot, never by whitespace. -/
def digitsToNat (ds : List Char) : Nat :=
  ds.foldl (fun n c => 10 * n + (c.toNat - 48)) 0

/-- Decimal value of `intPart.fracPart` as an exact rational. -/
def decimalValue (intPart fracPart : List Char) : Money :=
  (digitsToNat intPart : Money) + (digitsToNat fracPart : Money) / (10 ^ fracPart.length : Nat)

/-- Core of orchestrator._parse_budget: match the price-tag regex at the
start of the character list. -/
def parse_budget_chars (cs : List Char) : Option (Money × List Char) :=
  match cs with
  | '$' :: rest =>
    let ds := rest.takeWhile Char.isDigit
    let r1 := rest.dropWhile Char.isDigit
    if ds.isEmpty then none
    else
      let fr :=
        match r1 with
        | '.' :: r2 => (r2.takeWhile Char.isDigit, r2.dropWhile Char.isDigit)
        | _ => ([], r1)
      let ws := fr.2.takeWhile Char.isWhitespace
      let r3 := fr.2.dropWhile Char.isWhitespace
      if ws.isEmpty then none
      else some (decimalValue ds fr.1, r3)
  | _ => none

/-- orchestrator._parse_budget: extract a `$N` budget price tag, clamp it to
`max(0.01, min(value, MAX_TASK_BUDGET))`, default to DEFAULT_TASK_BUDGET. -/
def parse_budget (description : String) : Money × String :=
  match parse_budget_chars description.data with
  | some (v, rest) => (max (1/100) (min v MAX_TASK_BUDGET), String.mk rest)
  | none => (DEFAULT_TASK_BUDGET, description)

/-- orchestrator._DECOMPOSE_SIGNALS. -/
def DECOMPOSE_SIGNALS : List String :=
  ["explore", "write the thesis", "go through", "comprehensive", "entire",
   "all chapters", "run experiments", "and then", "step by step",
   "systematically", "complete the", "full analysis", "every"]

/-- orchestrator._is_decomposable. -/
def is_decomposable (description : String) (budget : Money) : Bool :=
  decide (budget > 2)
    || DECOMPOSE_SIGNALS.any (fun s => containsSub s.data (lowerStr description))
    || decide (description.length > 300)

/-- orchestrator._should_checkpoint: hedging-phrase scan of the latest text. -/
def UNCERTAINTY_MARKERS : List String :=
  ["i" ++ apos ++ "m not sure",
   "i" ++ apos ++ "m unsure",
   "this could go either way",
   "do you want me to",
   "should i proceed",
   "before i continue",
   "a few options",
   "which approach",
   "let me know if",
   "would you prefer"]

/-- orchestrator._should_checkpoint. -/
def should_checkpoint (response_text : String) : Bool :=
  UNCERTAINTY_MARKERS.any (fun m => containsSub m.data (lowerStr response_text))

/-! ## Initial conversation assembly (context.py) -/

/-- Python truthiness of an optional list (`None` and `[]` are falsy). -/
def truthyOpt (l : Option (List α)) : Bool :=
  match l with
  | none => false
  | some xs => !xs.isEmpty

/-- context.build_messages: optional long-term-memory context pair followed
by the task description (memory content comes from the external store). -/
def build_messages (longTermContext : Option String) (task_description : String) : List Msg :=
  (match longTermContext with
   | some c => [Msg.user c, Msg.assistantText "Understood, I will keep that context in mind."]
   | none => []) ++ [Msg.user task_description]

/-- context.build_subtask_messages: context-file block pair followed by the
description.  When the file list is non-empty the source always appends the
pair (unreadable files contribute error entries, so `context_parts` is
non-empty). -/
def build_subtask_messages (contextBlock : String) (description : String) : List Msg :=
  [Msg.user ("Context files:\n\n" ++ contextBlock),
   Msg.assistantText "I have read the context files. What is the task?",
   Msg.user description]

/-- orchestrator.run_agent_loop lines 221-229: choose the starting
conversation.  A truthy pre-existing conversation is used verbatim. -/
def initial_messages (env : Env) (description : String) (depth : Nat)
    (conversation_history : Option (List Msg)) (context_files : Option (List String)) : List Msg :=
  if truthyOpt conversation_history then conversation_history.getD []
  else if decide (depth > 0) && truthyOpt context_files then
    build_subtask_messages (env.readContextBlock (context_files.getD [])) description
  else if depth = 0 then build_messages (env.longTermContext description) description
  else [Msg.user description]

/-! ## Delegation engine (tools/delegation.py) -/

/-- Rendering of a status into the tag used by delegation replies. -/
def statusName : Status → String
  | Status.queued => "queued"
  | Status.classifying => "classifying"
  | Status.in_progress => "in_progress"
  | Status.checkpoint => "checkpoint"
  | Status.completed => "completed"
  | Status.failed => "failed"
  | Status.stalled => "stalled"

/-- Dollar-amount rendering (decimal formatting abstracted). -/
def fmtUsd (m : Money) : String := "$" ++ toString m

/-- The budget clamp of handle_delegation:
`budget = max(budget, MIN); budget = min(budget, MAX_SUBTASK_BUDGET, remaining)`. -/
def clamp_subtask_budget (requested remaining : Money) : Money :=
  min (min (max requested MIN_SUBTASK_BUDGET) MAX_SUBTASK_BUDGET) remaining

/-- db.log_cost: append a cost-log entry (represented by its daily
aggregate) and add the cost and token counts to the owning task. -/
def log_cost (st : LoopSt) (task_id : Nat) (input_tokens output_tokens : Nat)
    (cost : Money) : LoopSt :=
  { st with
    db := update_task st.db task_id (fun t =>
      { t with
        token_cost := t.token_cost + cost
        input_tokens := t.input_tokens + input_tokens
        output_tokens := t.output_tokens + output_tokens })
    daily := st.daily + cost }

/-- Token cost of a task as read back from the repository, defaulting to
zero for a missing row (`task["token_cost"] if task else 0.0`, used both for
the parent remaining-budget read and the child terminal cost read). -/
def read_token_cost (db : DB) (task_id : Nat) : Money :=
  match get_task db task_id with
  | some t => t.token_cost
  | none => 0

/-- The truncated, status-prefixed reply returned to the parent
conversation after a delegated child finishes. -/
def delegation_reply (result : TaskResult) (child_cost : Money) : String :=
  let response := if result.response.isEmpty then "(no output)" else result.response
  let response :=
    if 500 < response.length then
      response.take 450 ++ "\n... [truncated, " ++ toString response.length ++ " chars total]"
    else response
  let statusTag :=
    if result.status ≠ Status.completed then "[" ++ statusName result.status ++ "] " else ""
  statusTag ++ ("Subtask result (" ++ (fmtUsd child_cost ++ ("):\n" ++ response)))

/-- tools/delegation.handle_delegation.  The recursive `run_subtask` call is
taken from the environment (the recursion seam between the execution loop
and the delegation engine); everything around it follows the source:
validation returning error strings, the post-child cost cascade, and the
truncated, status-prefixed reply.  The progress notification is
fire-and-forget and carries no state, so it has no model counterpart. -/
def handle_delegation (env : Env) (input : DelegateInput)
    (parent_task_id parent_depth : Nat) (parent_budget_remaining : Money)
    (st : LoopSt) : String × LoopSt :=
  if MAX_DELEGATION_DEPTH < parent_depth + 1 then
    ("Error: Max delegation depth (3) reached. Execute directly instead.", st)
  else if MAX_SUBTASKS_PER_TASK ≤ get_subtask_count st.db parent_task_id then
    ("Error: Max subtask limit (15) reached for this task.", st)
  else if clamp_subtask_budget input.budget_usd parent_budget_remaining < MIN_SUBTASK_BUDGET then
    ("Error: Insufficient budget remaining (" ++ fmtUsd parent_budget_remaining ++ ").", st)
  else
    let run := env.runSubtask
      (input.task_description ++ "\n\nExpected output: " ++ input.expected_output)
      parent_task_id parent_depth
      (clamp_subtask_budget input.budget_usd parent_budget_remaining)
      input.context_files st
    let child_cost := read_token_cost run.2.db run.1.task_id
    (delegation_reply run.1 child_cost,
     { run.2 with db := cascade_cost_to_parent run.2.db run.1.task_id child_cost })

/-! ## Execution loop (orchestrator.run_agent_loop) -/

/-- Loop-constant data of one run_agent_loop invocation.  `hadHistory` is
the truthiness of the `conversation_history` argument, consulted by the
step-1 assistant-append guard. -/
structure LoopCfg where
  task_id : Nat
  description : String
  depth : Nat
  budget : Money
  role : Role
  hadHistory : Bool
  model : ModelId
deriving Repr

/-- Text blocks of a response, in order (the `text_parts` partition). -/
def partText (content : List Block) : List String :=
  content.filterMap (fun b =>
    match b with
    | Block.text s => some s
    | Block.toolUse _ => none)

/-- Tool-use blocks of a response, in order (the `tool_uses` partition). -/
def partTools (content : List Block) : List ToolUse :=
  content.filterMap (fun b =>
    match b with
    | Block.text _ => none
    | Block.toolUse tu => some tu)

/-- Loop lines 312-341: execute the requested tools sequentially in request
order, accumulating `(tool_use_id, result_text)` pairs.  `delegate_task`
routes to handle_delegation with the parent's freshly-read remaining budget;
everything else routes to the tool executor (which never raises).  A
`delegate_task` call with a malformed payload raises KeyError, modelled as
the `Except.error` outcome caught at the loop boundary. -/
def runTools (env : Env) (cfg : LoopCfg) :
    List ToolUse → List (String × String) → LoopSt →
    Except String (List (String × String)) × LoopSt
  | [], acc, st => (Except.ok acc, st)
  | tu :: rest, acc, st =>
    if tu.name = "delegate_task" then
      match tu.arg with
      | ToolArg.delegation d =>
        let out := handle_delegation env d cfg.task_id cfg.depth
          (cfg.budget - read_token_cost st.db cfg.task_id) st
        runTools env cfg rest (acc ++ [(tu.id, out.1)]) out.2
      | ToolArg.other _ =>
        (Except.error (apos ++ "task_description" ++ apos), st)
    else
      let out := env.execTool tu.name tu.arg st
      runTools env cfg rest (acc ++ [(tu.id, out.1)]) out.2

/-- Loop exit after the while loop (lines 354-369): persist completed with
the truncated result, store a session memory for depth-0 nodes, and return
the full accumulated text. -/
def complete_exit (cfg : LoopCfg) (final_response : String) (step : Nat)
    (st : LoopSt) : TaskResult × LoopSt :=
  let st := { st with
    db := update_task st.db cfg.task_id (fun t =>
      { t with status := Status.completed, result := some (final_response.take 1000) }) }
  let st :=
    if cfg.depth = 0 then
      { st with memories := st.memories ++
        [{ task_id := cfg.task_id
           description := cfg.description.take 200
           result := if final_response.isEmpty then "No text output" else final_response.take 300
           model := cfg.model
           steps := step
           role := cfg.role }] }
    else st
  (⟨cfg.task_id, Status.completed, final_response, false, "", none⟩, st)

/-- The single recovery boundary (lines 371-374): persist failed with the
fault message and return a failed outcome. -/
def exception_exit (cfg : LoopCfg) (msg : String) (st : LoopSt) : TaskResult × LoopSt :=
  ({ task_id := cfg.task_id
     status := Status.failed
     response := "Task failed: " ++ msg
     needs_checkpoint := false
     checkpoint_reason := ""
     conversation_history := none },
   { st with
     db := update_task st.db cfg.task_id (fun t =>
       { t with status := Status.failed, error := some msg }) })

/-- Outcome of one iteration of the while loop: an early return or a break
(`exit`), or the next iteration's carried state (`next`). -/
inductive IterOut where
  | exit (res : TaskResult) (resps : List RespOutcome) (st : LoopSt)
  | next (msgs : List Msg) (final_response : String) (planner_first : Bool)
      (resps : List RespOutcome) (st : LoopSt)

/-- Loop lines 304-352, after the planner-first-response block: the break
check (`stop_reason == "end_turn" or not tool_uses`), the guarded assistant
append, sequential tool execution appended as one combined turn, and the
root-worker uncertainty checkpoint (which carries no conversation). -/
def iterStep4 (env : Env) (cfg : LoopCfg) (msgs : List Msg) (fr : String)
    (pfr : Bool) (step : Nat) (rest : List RespOutcome) (resp : ApiResponse)
    (st : LoopSt) : IterOut :=
  let toolUses := partTools resp.content
  if resp.stop_reason = StopReason.end_turn || toolUses.isEmpty then
    let out := complete_exit cfg fr step st
    IterOut.exit out.1 rest out.2
  else
    let msgs :=
      if cfg.role = Role.planner && step = 1 && !cfg.hadHistory then msgs
      else msgs ++ [Msg.assistant resp.content]
    let tr := runTools env cfg toolUses [] st
    match tr.1 with
    | Except.error e =>
      let out := exception_exit cfg e tr.2
      IterOut.exit out.1 rest out.2
    | Except.ok results =>
      let msgs := msgs ++ [Msg.userToolResults results]
      if cfg.depth = 0 && cfg.role = Role.worker && !fr.isEmpty && should_checkpoint fr then
        IterOut.exit
          ⟨cfg.task_id, Status.checkpoint, fr, true, "Claude expressed uncertainty", none⟩
          rest
          { tr.2 with db := update_task tr.2.db cfg.task_id (fun t =>
              { t with status := Status.checkpoint }) }
      else IterOut.next msgs fr pfr rest tr.2

/-- Loop lines 260-302: consume the response, log its cost, accumulate the
text, and apply the planner first-response rule, which checkpoints only when
the accumulated text is non-empty and tool calls are present. -/
def iterStep3 (env : Env) (cfg : LoopCfg) (msgs : List Msg) (fr : String)
    (pfr : Bool) (step : Nat) (rest : List RespOutcome) (resp : ApiResponse)
    (st : LoopSt) : IterOut :=
  let cost := calculate_cost cfg.model resp.input_tokens resp.output_tokens
  let st := log_cost st cfg.task_id resp.input_tokens resp.output_tokens cost
  let texts := partText resp.content
  let fr := if texts.isEmpty then fr else String.intercalate "\n" texts
  if pfr && !fr.isEmpty then
    let msgs := msgs ++ [Msg.assistant resp.content]
    if !(partTools resp.content).isEmpty then
      IterOut.exit
        ⟨cfg.task_id, Status.checkpoint, fr, true, "Plan ready for approval", some msgs⟩
        rest
        { st with db := update_task st.db cfg.task_id (fun t =>
            { t with status := Status.checkpoint }) }
    else iterStep4 env cfg msgs fr false step rest resp st
  else iterStep4 env cfg msgs fr pfr step rest resp st

/-- Loop lines 251-258: the daily-spend safety net, then the call to the
reasoning service (a raised fault reaches the recovery boundary; an
exhausted stream is an artifact of the finite oracle and is treated as a
fault as well). -/
def iterStep2 (env : Env) (cfg : LoopCfg) (msgs : List Msg) (fr : String)
    (pfr : Bool) (step : Nat) (resps : List RespOutcome) (st : LoopSt) : IterOut :=
  if COST_LIMIT_DAILY < st.daily then
    let st := { st with db := update_task st.db cfg.task_id (fun t =>
      { t with status := Status.stalled, error := some "Daily cost limit exceeded" }) }
    IterOut.exit
      ⟨cfg.task_id, Status.stalled,
        "Daily budget limit (" ++ fmtUsd COST_LIMIT_DAILY ++ ") reached. Total today: "
          ++ fmtUsd st.daily ++ ".",
        false, "", none⟩
      resps st
  else
    match resps with
    | [] =>
      let out := exception_exit cfg "reasoning service returned no response" st
      IterOut.exit out.1 [] out.2
    | RespOutcome.fault e :: rest =>
      let out := exception_exit cfg e st
      IterOut.exit out.1 rest out.2
    | RespOutcome.ok resp :: rest => iterStep3 env cfg msgs fr pfr step rest resp st

/-- One full iteration of the while loop (lines 238-352): bump and persist
step_count, check the per-node budget guard, then hand over to the daily
guard and the reasoning call. -/
def iterStep (env : Env) (cfg : LoopCfg) (msgs : List Msg) (fr : String)
    (pfr : Bool) (step : Nat) (resps : List RespOutcome) (st : LoopSt) : IterOut :=
  let step := step + 1
  let st := { st with db := update_task st.db cfg.task_id (fun t =>
    { t with step_count := step }) }
  match get_task st.db cfg.task_id with
  | some t =>
    if cfg.budget < t.token_cost then
      let st := { st with db := update_task st.db cfg.task_id (fun x =>
        { x with status := Status.stalled, error := some "Budget exceeded" }) }
      IterOut.exit
        ⟨cfg.task_id, Status.stalled,
          "Task halted — budget (" ++ fmtUsd cfg.budget ++ ") exceeded. Spent "
            ++ fmtUsd t.token_cost ++ ".",
          false, "", none⟩
        resps st
    else iterStep2 env cfg msgs fr pfr step resps st
  | none => iterStep2 env cfg msgs fr pfr step resps st

/-- The while loop itself, structurally recursive on the remaining step
budget (`max_steps - step`); falling out of the loop lands on the completed
branch. -/
def runLoopAux (env : Env) (cfg : LoopCfg) :
    Nat → List Msg → String → Bool → Nat → List RespOutcome → LoopSt →
    TaskResult × List RespOutcome × LoopSt
  | 0, _msgs, fr, _pfr, step, resps, st =>
    let out := complete_exit cfg fr step st
    (out.1, resps, out.2)
  | fuel + 1, msgs, fr, pfr, step, resps, st =>
    match iterStep env cfg msgs fr pfr step resps st with
    | IterOut.exit res resps' st' => (res, resps', st')
    | IterOut.next msgs' fr' pfr' resps' st' =>
      runLoopAux env cfg fuel msgs' fr' pfr' (step + 1) resps' st'

/-- orchestrator.run_agent_loop: model pick, status update, initial
conversation, then the bounded loop.  `resps` is this node's stream of
reasoning-service outcomes (each iteration consumes at most one; delegated
children consume from their own streams inside `env.runSubtask`). -/
def run_agent_loop (env : Env) (task_id : Nat) (description : String)
    (depth : Nat) (budget : Money) (role : Role)
    (conversation_history : Option (List Msg)) (context_files : Option (List String))
    (resps : List RespOutcome) (st : LoopSt) :
    TaskResult × List RespOutcome × LoopSt :=
  let model := if role = Role.planner then ModelId.sonnetLatest else env.classifyModel description
  let st := { st with db := update_task st.db task_id (fun t =>
    { t with status := Status.in_progress, model := some model }) }
  let msgs := initial_messages env description depth conversation_history context_files
  let cfg : LoopCfg :=
    { task_id := task_id, description := description, depth := depth, budget := budget,
      role := role, hadHistory := truthyOpt conversation_history, model := model }
  runLoopAux env cfg (STEPS_BY_DEPTH depth) msgs ""
    (role = Role.planner && !truthyOpt conversation_history) 0 resps st

/-- orchestrator.continue_task: resume a planner after checkpoint approval
with the preserved conversation. -/
def continue_task (env : Env) (task_id : Nat) (conversation_history : List Msg)
    (budget : Money) (resps : List RespOutcome) (st : LoopSt) :
    TaskResult × List RespOutcome × LoopSt :=
  match get_task st.db task_id with
  | none => (⟨task_id, Status.failed, "Task not found.", false, "", none⟩, resps, st)
  | some t =>
    let st := { st with db := update_task st.db task_id (fun x =>
      { x with status := Status.in_progress }) }
    run_agent_loop env task_id t.description 0 budget Role.planner
      (some conversation_history) none resps st

/-- orchestrator.process_task, task-creation part (lines 114-128): parse the
budget price tag, create the root task at depth 0, decide the role, and move
the task to classifying.  The generated time-based id is a parameter. -/
def process_task_setup (db : DB) (new_id : Nat) (raw_description : String) :
    DB × Task × Role :=
  let pb := parse_budget raw_description
  let task := create_task new_id pb.2 (STEPS_BY_DEPTH 0) pb.1 0 none
  let db := db ++ [task]
  let role := if is_decomposable pb.2 pb.1 then Role.planner else Role.worker
  let db := update_task db new_id (fun t => { t with status := Status.classifying })
  (db, task, role)

/-- The fixed restart diagnostic of the Recovery Sweep. -/
def RESTART_DIAGNOSTIC : String := "Recovered after restart — was in_progress"

/-- The per-task field update applied by the Recovery Sweep. -/
def restart_fail (t : Task) : Task :=
  { t with status := Status.failed, error := some RESTART_DIAGNOSTIC }

/-- The operator-facing line reported for one recovered task. -/
def recover_message (t : Task) : String :=
  "Recovered stale task `" ++ toString t.id ++ "`: " ++ t.description.take 80

/-- orchestrator.recover_stale_tasks: mark every in_progress task failed
with the restart diagnostic and report one line per recovered task. -/
def recover_stale_tasks (db : DB) : DB × List String :=
  let stale := get_stale_tasks db
  let db := stale.foldl (fun d t => update_task d t.id restart_fail) db
  (db, stale.map recover_message)

/-! ## Derived notions used by the verification -/

/-- Delegation replies signalling rejection are exactly the strings built
with the `Error:` head. -/
def isErrorReply (s : String) : Bool :=
  startsWithList ("Error:".data) s.data

/-- The exact ancestor walk of `cascade_cost_to_parent` starting from (and
excluding) a task id: the list of ids that receive the cascaded cost, ending
at a root (null parent) or at a dangling parent reference.  On a cyclic
parent chain no finite list satisfies the predicate, matching the
non-termination of the source loop there. -/
inductive ParentChain (db : DB) : Nat → List Nat → Prop where
  | stop_absent (id : Nat) : get_task db id = none → ParentChain db id []
  | stop_root (id : Nat) (t : Task) :
      get_task db id = some t → t.parent_task_id = none → ParentChain db id []
  | step (id : Nat) (t : Task) (pid : Nat) (rest : List Nat) :
      get_task db id = some t → t.parent_task_id = some pid →
      ParentChain db pid rest → ParentChain db id (pid :: rest)

/-! ## Concrete scenario data used by counterexamples and witnesses -/

/-- A root task used by the concrete runs. -/
def task1 : Task := create_task 1 "plan stuff" 20 1 0 none

/-- An observer task: the concrete tool executor bumps its cost, making tool
execution visible in the final state. -/
def task99 : Task := create_task 99 "marker" 20 1 0 none

/-- Initial world for the concrete runs. -/
def st0 : LoopSt := { db := [task1, task99], daily := 0, memories := [] }

/-- Concrete environment: the tool executor bumps task 99 (so that a tool
execution is observable), the classifier picks haiku, no injected memory or
context. -/
def envX : Env :=
  { execTool := fun _ _ st =>
      ("ok", { st with db := update_task st.db 99 (fun t =>
        { t with token_cost := t.token_cost + 1 }) })
    runSubtask := fun _ _ _ _ _ st => (⟨2, Status.completed, "sub", false, "", none⟩, st)
    classifyModel := fun _ => ModelId.haiku
    longTermContext := fun _ => none
    readContextBlock := fun _ => "ctx" }

/-- First planner response of the C1 scenario: a tool request and no text. -/
def respToolOnly : ApiResponse :=
  { content := [Block.toolUse ⟨"t1", "read_file", ToolArg.other "x"⟩]
    stop_reason := StopReason.tool_use
    input_tokens := 0
    output_tokens := 0 }

/-- Second planner response of the C1 scenario: text only, end_turn. -/
def respDone : ApiResponse :=
  { content := [Block.text "done"]
    stop_reason := StopReason.end_turn
    input_tokens := 0
    output_tokens := 0 }

/-- The C1 scenario: a fresh planner whose very first response carries a
tool request but no text. -/
def c1run : TaskResult × List RespOutcome × LoopSt :=
  run_agent_loop envX 1 "plan stuff" 0 1 Role.planner none none
    [RespOutcome.ok respToolOnly, RespOutcome.ok respDone] st0

/-- Response of the C4 scenario: text plus a tool request, but stop_reason
end_turn. -/
def respEndTurnWithTool : ApiResponse :=
  { content := [Block.text "hi", Block.toolUse ⟨"t1", "read_file", ToolArg.other "x"⟩]
    stop_reason := StopReason.end_turn
    input_tokens := 0
    output_tokens := 0 }

/-- The C4 scenario: a worker whose response signals end_turn while also
requesting a tool. -/
def c4run : TaskResult × List RespOutcome × LoopSt :=
  run_agent_loop envX 1 "do it" 1 1 Role.worker none none
    [RespOutcome.ok respEndTurnWithTool] st0

/-- Response of the C6 scenario: hedging text plus a tool request. -/
def respUnsure : ApiResponse :=
  { content := [Block.text ("I" ++ apos ++ "m not sure about this"),
                Block.toolUse ⟨"t1", "read_file", ToolArg.other "x"⟩]
    stop_reason := StopReason.tool_use
    input_tokens := 0
    output_tokens := 0 }

/-- The C6 scenario: a root worker that hits the uncertainty checkpoint. -/
def c6run : TaskResult × List RespOutcome × LoopSt :=
  run_agent_loop envX 1 "do it" 0 1 Role.worker none none
    [RespOutcome.ok respUnsure] st0

/-- Parent and child tasks of the C2 witness. -/
def taskP : Task := create_task 1 "parent" 10 2 0 none

/-- Child of taskP. -/
def taskC : Task := create_task 2 "child" 10 (1/10) 1 (some 1)

/-- Witness environment for C2: the child run spends 3 cents on the child
row. -/
def envW : Env :=
  { execTool := fun _ _ st => ("ok", st)
    runSubtask := fun _ _ _ _ _ st =>
      (⟨2, Status.completed, "ok", false, "", none⟩,
       { st with db := update_task st.db 2 (fun t =>
          { t with token_cost := t.token_cost + 3/100 }) })
    classifyModel := fun _ => ModelId.haiku
    longTermContext := fun _ => none
    readContextBlock := fun _ => "ctx" }

/-- Witness world for C2 and C3. -/
def stW : LoopSt := { db := [taskP, taskC], daily := 0, memories := [] }

/-- Witness delegation request. -/
def inputW : DelegateInput :=
  { task_description := "count things"
    expected_output := "a number"
    budget_usd := 1/20
    context_files := none }

/-- A task stranded in_progress, for the Recovery Sweep witness. -/
def taskIP : Task :=
  { create_task 5 "stuck work" 10 1 0 none with status := Status.in_progress }

/-- Responses remaining after one iteration outcome. -/
def iterOutResps : IterOut → List RespOutcome
  | IterOut.exit _ r _ => r
  | IterOut.next _ _ _ r _ => r

/-- World reached when the planner first-response checkpoint fires inside
one iteration: step_count persisted, call cost logged, status set to
checkpoint — and nothing else, in particular no tool executed. -/
def planner_checkpoint_state (cfg : LoopCfg) (resp : ApiResponse) (step : Nat)
    (st : LoopSt) : LoopSt :=
  let st1 := { st with db := update_task st.db cfg.task_id (fun t =>
    { t with step_count := step + 1 }) }
  let st2 := log_cost st1 cfg.task_id resp.input_tokens resp.output_tokens
    (calculate_cost cfg.model resp.input_tokens resp.output_tokens)
  { st2 with db := update_task st2.db cfg.task_id (fun t =>
    { t with status := Status.checkpoint }) }

/-- World reached when the per-node budget guard fires: step_count
persisted, then status stalled with the budget diagnostic — the reasoning
service is not consulted. -/
def stalled_budget_state (cfg : LoopCfg) (step : Nat) (st : LoopSt) : LoopSt :=
  let db2 := update_task
    (update_task st.db cfg.task_id (fun x => { x with step_count := step + 1 }))
    cfg.task_id
    (fun x => { x with status := Status.stalled, error := some "Budget exceeded" })
  { st with db := db2 }

/-- World reached when the global daily guard fires. -/
def stalled_daily_state (cfg : LoopCfg) (step : Nat) (st : LoopSt) : LoopSt :=
  let db2 := update_task
    (update_task st.db cfg.task_id (fun x => { x with step_count := step + 1 }))
    cfg.task_id
    (fun x => { x with status := Status.stalled, error := some "Daily cost limit exceeded" })
  { st with db := db2 }

/-- Loop configuration of a fresh planner run (no pre-existing
conversation), as assembled by run_agent_loop. -/
def planner_cfg (task_id : Nat) (desc : String) (depth : Nat) (budget : Money) : LoopCfg :=
  { task_id := task_id, description := desc, depth := depth, budget := budget,
    role := Role.planner, hadHistory := false, model := ModelId.sonnetLatest }

/-- The status/model write performed on loop entry
(db.update_task(status=in_progress, model=model)). -/
def mark_in_progress (task_id : Nat) (model : ModelId) (st : LoopSt) : LoopSt :=
  { st with db := update_task st.db task_id (fun t =>
      { t with status := Status.in_progress, model := some model }) }

/-- First planner response of the C1 witness: a plan text plus a tool
request. -/
def respPlanTool : ApiResponse :=
  { content := [Block.text "the plan", Block.toolUse ⟨"t1", "delegate_task",
      ToolArg.delegation inputW⟩]
    stop_reason := StopReason.tool_use
    input_tokens := 0
    output_tokens := 0 }

/-- A task that has overspent its budget, for the C5 witness. -/
def taskOver : Task := { create_task 3 "over" 10 1 0 none with token_cost := 2 }

/-- World for the C5 budget-guard witness. -/
def stOver : LoopSt := { db := [taskOver], daily := 0, memories := [] }

/-- World for the C5 daily-guard witness: daily spend beyond the ceiling. -/
def stDaily : LoopSt := { db := [task1], daily := 25, memories := [] }

/-- Loop configuration for the C5 budget-guard witness. -/
def cfgOver : LoopCfg :=
  { task_id := 3, description := "over", depth := 0, budget := 1,
    role := Role.worker, hadHistory := false, model := ModelId.haiku }

/-- Loop configuration for the C5 daily-guard witness. -/
def cfgDaily : LoopCfg :=
  { task_id := 1, description := "plan stuff", depth := 0, budget := 1,
    role := Role.worker, hadHistory := false, model := ModelId.haiku }

/-- Final repository record of task 3 after the budget-stall run, used by
the C10 witness. -/
def taskStalled : Task :=
  { taskOver with
    status := Status.stalled
    model := some ModelId.haiku
    step_count := 1
    error := some "Budget exceeded" }

/-- Child outcome produced by envW.runSubtask. -/
def resW : TaskResult := ⟨2, Status.completed, "ok", false, "", none⟩

/-- World after envW.runSubtask has run the child against stW. -/
def stW1 : LoopSt :=
  { stW with db := update_task stW.db 2 (fun t =>
      { t with token_cost := t.token_cost + 3/100 }) }

unseal Rat.add Rat.mul Rat.inv

/-! ## Basic repository lemmas -/

theorem update_task_eq_map (db : DB) (i : Nat) (f : Task → Task) :
    update_task db i f = db.map (fun t => if t.id = i then f t else t) := rfl

theorem get_task_update (db : DB) (i j : Nat) (f : Task → Task)
    (hid : ∀ x, (f x).id = x.id) :
    get_task (update_task db i f) j
      = (get_task db j).map (fun t => if t.id = i then f t else t) := by
  unfold get_task update_task
  induction db with
  | nil => rfl
  | cons a l ih =>
    simp only [List.map_cons]
    have hga : (if a.id = i then f a else a).id = a.id := by
      by_cases h : a.id = i <;> simp [h, hid]
    by_cases hj : a.id = j
    · rw [List.find?_cons_of_pos _ (by simp only [hga]; simp [hj]),
        List.find?_cons_of_pos _ (by simp [hj])]
      simp
    · rw [List.find?_cons_of_neg _ (by simp only [hga]; simp [hj]),
        List.find?_cons_of_neg _ (by simp [hj])]
      exact ih

theorem mem_update_task {t' : Task} {db : DB} {i : Nat} {f : Task → Task}
    (h : t' ∈ update_task db i f) :
    ∃ t ∈ db, t' = if t.id = i then f t else t := by
  unfold update_task at h
  rcases List.mem_map.mp h with ⟨t, ht, rfl⟩
  exact ⟨t, ht, rfl⟩

theorem status_after_update {db : DB} {i : Nat} {f : Task → Task} {s : Status}
    (hid : ∀ x, (f x).id = x.id) (hs : ∀ x, (f x).status = s) :
    ∀ t' ∈ update_task db i f, t'.id = i → t'.status = s := by
  intro t' ht' hti
  rcases mem_update_task ht' with ⟨t, _, rfl⟩
  by_cases h : t.id = i
  · simp only [h, if_pos rfl] at hti ⊢
    exact hs t
  · simp only [if_neg h] at hti ⊢
    exact absurd hti h

/-! ## Cascade correctness (C2 machinery) -/

theorem parentChain_update {db : DB} {start : Nat} {l : List Nat}
    (hchain : ParentChain db start l) (i : Nat) (f : Task → Task)
    (hid : ∀ x, (f x).id = x.id)
    (hpar : ∀ x, (f x).parent_task_id = x.parent_task_id) :
    ParentChain (update_task db i f) start l := by
  induction hchain with
  | stop_absent id h =>
    apply ParentChain.stop_absent
    rw [get_task_update db i id f hid, h]
    rfl
  | stop_root id t h hp =>
    apply ParentChain.stop_root id (if t.id = i then f t else t)
    · rw [get_task_update db i id f hid, h]
      rfl
    · by_cases hcase : t.id = i
      · simp [hcase, hpar, hp]
      · simp [hcase, hp]
  | step id t pid rest h hp _hrest ih =>
    apply ParentChain.step id (if t.id = i then f t else t) pid rest
    · rw [get_task_update db i id f hid, h]
      rfl
    · by_cases hcase : t.id = i
      · simp [hcase, hpar, hp]
      · simp [hcase, hp]
    · exact ih

theorem cascade_aux_spec (cost : Money) :
    ∀ (l : List Nat) (db : DB) (start fuel : Nat),
      ParentChain db start l → l.Nodup → l.length ≤ fuel →
      cascade_aux cost fuel db start
        = db.map (fun t =>
            if t.id ∈ l then { t with token_cost := t.token_cost + cost } else t) := by
  intro l
  induction l with
  | nil =>
    intro db start fuel hchain _hnd _hlen
    have hmap : db.map (fun t =>
        if t.id ∈ ([] : List Nat) then { t with token_cost := t.token_cost + cost } else t)
        = db := by
      simp
    rw [hmap]
    cases fuel with
    | zero => rfl
    | succ k =>
      cases hchain with
      | stop_absent _ h => simp [cascade_aux, h]
      | stop_root _ t h hp => simp [cascade_aux, h, hp]
  | cons pid rest ih =>
    intro db start fuel hchain hnd hlen
    cases hchain with
    | step _ t pid' rest' h hp hrest =>
      cases fuel with
      | zero => exact absurd hlen (by simp)
      | succ k =>
        have hstep : cascade_aux cost (k + 1) db start
            = cascade_aux cost k
                (update_task db pid (fun p => { p with token_cost := p.token_cost + cost }))
                pid := by
          simp only [cascade_aux, h, hp]
        rw [hstep]
        have hchain' : ParentChain
            (update_task db pid (fun p => { p with token_cost := p.token_cost + cost }))
            pid rest :=
          parentChain_update hrest pid _ (fun _ => rfl) (fun _ => rfl)
        have hnd' : rest.Nodup := (List.nodup_cons.mp hnd).2
        have hpidrest : pid ∉ rest := (List.nodup_cons.mp hnd).1
        have hlen' : rest.length ≤ k := by
          have := hlen
          simp only [List.length_cons] at this
          omega
        rw [ih _ pid k hchain' hnd' hlen']
        rw [update_task_eq_map, List.map_map]
        apply List.map_congr_left
        intro x _hx
        by_cases hxp : x.id = pid
        · simp [Function.comp, hxp, hpidrest, List.mem_cons]
        · by_cases hxr : x.id ∈ rest
          · simp [Function.comp, hxp, hxr, List.mem_cons]
          · simp [Function.comp, hxp, hxr, List.mem_cons]

theorem cascade_spec (db : DB) (child : Nat) (cost : Money) (l : List Nat)
    (hchain : ParentChain db child l) (hnd : l.Nodup) (hlen : l.length ≤ db.length) :
    cascade_cost_to_parent db child cost
      = db.map (fun t =>
          if t.id ∈ l then { t with token_cost := t.token_cost + cost } else t) :=
  cascade_aux_spec cost l db child db.length hchain hnd hlen

/-! ## Recovery sweep (C8 machinery) -/

theorem recover_fold (l : List Task) (db : DB) :
    l.foldl (fun d t => update_task d t.id restart_fail) db
      = db.map (fun x => if l.any (fun t => t.id == x.id) then restart_fail x else x) := by
  induction l generalizing db with
  | nil => simp
  | cons a l ih =>
    simp only [List.foldl_cons]
    rw [ih]
    rw [update_task_eq_map, List.map_map]
    apply List.map_congr_left
    intro x _hx
    by_cases hxa : x.id = a.id
    · by_cases hxl : l.any (fun t => t.id == x.id)
      · simp [Function.comp, hxa, hxl, restart_fail]
      · simp [Function.comp, hxa, hxl, restart_fail]
    · simp [Function.comp, Ne.symm hxa, hxa, restart_fail]

/-- Claim C8: after the Recovery Sweep runs on a repository snapshot, no
task remains in_progress; every task that was in_progress is marked failed
with the fixed restart diagnostic (same id), and each such task is surfaced
in the operator-facing list (one line per stale task, in order). -/
theorem c8_recovery_sweep (db : DB) :
    (∀ t' ∈ (recover_stale_tasks db).1, t'.status ≠ Status.in_progress)
    ∧ (∀ t ∈ db, t.status = Status.in_progress →
        restart_fail t ∈ (recover_stale_tasks db).1
          ∧ (restart_fail t).id = t.id
          ∧ (restart_fail t).status = Status.failed
          ∧ (restart_fail t).error = some RESTART_DIAGNOSTIC)
    ∧ (recover_stale_tasks db).2 = (get_stale_tasks db).map recover_message
    ∧ (∀ t ∈ db, t.status = Status.in_progress →
        recover_message t ∈ (recover_stale_tasks db).2) := by
  have hfst : (recover_stale_tasks db).1
      = db.map (fun x =>
          if (get_stale_tasks db).any (fun t => t.id == x.id) then restart_fail x else x) := by
    unfold recover_stale_tasks
    exact recover_fold (get_stale_tasks db) db
  refine ⟨?_, ?_, rfl, ?_⟩
  · intro t' ht'
    rw [hfst] at ht'
    rcases List.mem_map.mp ht' with ⟨x, hx, rfl⟩
    by_cases hany : (get_stale_tasks db).any (fun t => t.id == x.id)
    · rw [if_pos hany]
      intro hcontra
      simp [restart_fail] at hcontra
    · rw [if_neg hany]
      intro hcontra
      apply hany
      refine List.any_eq_true.mpr ⟨x, ?_, by simp⟩
      exact List.mem_filter.mpr ⟨hx, by simp [hcontra]⟩
  · intro t ht hprog
    have hstale : t ∈ get_stale_tasks db := List.mem_filter.mpr ⟨ht, by simp [hprog]⟩
    have hany : (get_stale_tasks db).any (fun x => x.id == t.id) = true :=
      List.any_eq_true.mpr ⟨t, hstale, by simp⟩
    refine ⟨?_, rfl, rfl, rfl⟩
    rw [hfst]
    exact List.mem_map.mpr ⟨t, ht, by rw [if_pos hany]⟩
  · intro t ht hprog
    have hstale : t ∈ get_stale_tasks db := List.mem_filter.mpr ⟨ht, by simp [hprog]⟩
    exact List.mem_map.mpr ⟨t, hstale, rfl⟩

/-- Claim C9: submitting a task parses an optional leading price tag,
clamps the parsed value into the [0.01, MAX_TASK_BUDGET] band, defaults to
DEFAULT_TASK_BUDGET when the prefix is absent, and creates a root task at
depth 0 (no parent) with that budget; in particular, submitting
"$0.50 summarize chapter 3" creates a root with budget 0.50, description
"summarize chapter 3", depth 0 and role worker. -/
theorem c9_submit_budget :
    (∀ raw : String,
      MIN_SUBTASK_BUDGET ≤ (parse_budget raw).1 ∧ (parse_budget raw).1 ≤ MAX_TASK_BUDGET)
    ∧ (∀ raw : String, parse_budget_chars raw.data = none →
        parse_budget raw = (DEFAULT_TASK_BUDGET, raw))
    ∧ (∀ (db : DB) (new_id : Nat) (raw : String),
        (process_task_setup db new_id raw).2.1.depth = 0
          ∧ (process_task_setup db new_id raw).2.1.parent_task_id = none
          ∧ (process_task_setup db new_id raw).2.1.budget = (parse_budget raw).1
          ∧ (process_task_setup db new_id raw).2.1.description = (parse_budget raw).2)
    ∧ (process_task_setup [] 7 "$0.50 summarize chapter 3").2.1.budget = 1/2
    ∧ (process_task_setup [] 7 "$0.50 summarize chapter 3").2.1.description
        = "summarize chapter 3"
    ∧ (process_task_setup [] 7 "$0.50 summarize chapter 3").2.1.depth = 0
    ∧ (process_task_setup [] 7 "$0.50 summarize chapter 3").2.2 = Role.worker := by
  refine ⟨?_, ?_, ?_, by decide, by decide, by decide, by decide⟩
  · intro raw
    unfold parse_budget
    cases h : parse_budget_chars raw.data with
    | none =>
      exact ⟨(by decide : MIN_SUBTASK_BUDGET ≤ DEFAULT_TASK_BUDGET),
        (by decide : DEFAULT_TASK_BUDGET ≤ MAX_TASK_BUDGET)⟩
    | some pr =>
      obtain ⟨v, rest⟩ := pr
      constructor
      · exact le_max_left _ _
      · exact max_le (by decide) (min_le_right _ _)
  · intro raw h
    unfold parse_budget
    rw [h]
  · intro db new_id raw
    exact ⟨rfl, rfl, rfl, rfl⟩

/-- Closed witness for C9: the default branch fires on a description with
no price tag, and the scenario instance is applied at a concrete input. -/
theorem c9_submit_budget_witness :
    parse_budget "hello" = (DEFAULT_TASK_BUDGET, "hello")
      ∧ MIN_SUBTASK_BUDGET ≤ (parse_budget "hello").1 :=
  ⟨c9_submit_budget.2.1 "hello" (by decide), (c9_submit_budget.1 "hello").1⟩

/-- Closed witness for C8: the sweep applied to a snapshot holding one
in_progress task marks it failed with the diagnostic and surfaces it. -/
theorem c8_recovery_sweep_witness :
    (restart_fail taskIP ∈ (recover_stale_tasks [taskIP]).1
      ∧ (restart_fail taskIP).id = taskIP.id
      ∧ (restart_fail taskIP).status = Status.failed
      ∧ (restart_fail taskIP).error = some RESTART_DIAGNOSTIC)
      ∧ recover_message taskIP ∈ (recover_stale_tasks [taskIP]).2 :=
  ⟨(c8_recovery_sweep [taskIP]).2.1 taskIP (by decide) (by decide),
   (c8_recovery_sweep [taskIP]).2.2.2 taskIP (by decide) (by decide)⟩

/-! ## Delegation validation (C3) -/

theorem startsWithList_append (n a b : List Char)
    (h : startsWithList n a = true) : startsWithList n (a ++ b) = true := by
  induction n generalizing a with
  | nil => rfl
  | cons c n ih =>
    cases a with
    | nil => exact absurd h (by simp [startsWithList])
    | cons d a' =>
      simp only [startsWithList, Bool.and_eq_true] at h
      simp only [List.cons_append, startsWithList, Bool.and_eq_true]
      exact ⟨h.1, ih a' h.2⟩

theorem isErrorReply_of_head_append (pre rest : String)
    (h : startsWithList ("Error:".data) pre.data = true) :
    isErrorReply (pre ++ rest) = true := by
  unfold isErrorReply
  rw [String.data_append]
  exact startsWithList_append _ _ _ h

theorem not_isErrorReply_cons (c : Char) (l : List Char) (hc : ('E' == c) = false) :
    startsWithList ("Error:".data) (c :: l) = false := by
  have hdata : "Error:".data = 'E' :: 'r' :: 'r' :: 'o' :: 'r' :: ':' :: [] := rfl
  rw [hdata]
  simp [startsWithList, hc]

/-- The success reply of handle_delegation never carries the Error head:
it starts with an opening bracket (non-completed child) or with the
Subtask-result header. -/
theorem delegation_reply_not_error (result : TaskResult) (child_cost : Money) :
    isErrorReply (delegation_reply result child_cost) = false := by
  unfold delegation_reply isErrorReply
  by_cases hst : result.status ≠ Status.completed
  · rw [if_pos hst]
    rw [String.data_append, String.data_append, String.data_append]
    rw [show "[".data = ['['] from rfl]
    simp only [List.append_assoc, List.cons_append, List.nil_append]
    exact not_isErrorReply_cons _ _ (by decide)
  · rw [if_neg hst]
    rw [String.data_append]
    rw [show ("" : String).data = [] from rfl, List.nil_append]
    rw [String.data_append]
    rw [show "Subtask result (".data = 'S' :: "ubtask result (".data from rfl,
      List.cons_append]
    exact not_isErrorReply_cons _ _ (by decide)

/-- Claim C3: a delegation request is rejected with a descriptive error
string (the model returns strings on every path, never a raised fault,
matching the source which only returns) exactly when the child depth would
exceed MAX_DELEGATION_DEPTH, or the parent already holds
MAX_SUBTASKS_PER_TASK children, or the budget clamped to
[MIN_SUBTASK_BUDGET, MAX_SUBTASK_BUDGET, parentRemaining] is still below
MIN_SUBTASK_BUDGET; and every rejection leaves the state untouched (no
child record is created or run, since the sub-run seam is never invoked). -/
theorem c3_delegation_reject_iff (env : Env) (input : DelegateInput)
    (pid pdepth : Nat) (rem : Money) (st : LoopSt) :
    (isErrorReply (handle_delegation env input pid pdepth rem st).1 = true
      ↔ (MAX_DELEGATION_DEPTH < pdepth + 1
          ∨ MAX_SUBTASKS_PER_TASK ≤ get_subtask_count st.db pid
          ∨ clamp_subtask_budget input.budget_usd rem < MIN_SUBTASK_BUDGET))
    ∧ (isErrorReply (handle_delegation env input pid pdepth rem st).1 = true →
        (handle_delegation env input pid pdepth rem st).2 = st) := by
  unfold handle_delegation
  by_cases h1 : MAX_DELEGATION_DEPTH < pdepth + 1
  · rw [if_pos h1]
    refine ⟨⟨fun _ => Or.inl h1, fun _ => ?_⟩, fun _ => rfl⟩
    exact isErrorReply_of_head_append "Error: Max delegation depth (3" _ (by decide)
  · rw [if_neg h1]
    by_cases h2 : MAX_SUBTASKS_PER_TASK ≤ get_subtask_count st.db pid
    · rw [if_pos h2]
      refine ⟨⟨fun _ => Or.inr (Or.inl h2), fun _ => ?_⟩, fun _ => rfl⟩
      exact isErrorReply_of_head_append "Error: Max subtask limit (15" _ (by decide)
    · rw [if_neg h2]
      by_cases h3 : clamp_subtask_budget input.budget_usd rem < MIN_SUBTASK_BUDGET
      · rw [if_pos h3]
        refine ⟨⟨fun _ => Or.inr (Or.inr h3), fun _ => ?_⟩, fun _ => rfl⟩
        exact isErrorReply_of_head_append "Error: Insufficient budget remaining (" _ (by decide)
      · rw [if_neg h3]
        constructor
        · constructor
          · intro habs
            rw [delegation_reply_not_error] at habs
            exact Bool.noConfusion habs
          · intro hor
            rcases hor with h | h | h
            · exact absurd h h1
            · exact absurd h h2
            · exact absurd h h3
        · intro habs
          rw [delegation_reply_not_error] at habs
          exact Bool.noConfusion habs

/-- Closed witness for C3: a request for two dollars against thirty cents
of remaining parent budget is accepted after clamping (0.30 is above the
floor), while the same request against half a cent remaining is rejected
with an error string and an untouched state. -/
theorem c3_delegation_reject_iff_witness :
    (isErrorReply (handle_delegation envW inputW 1 0 (1/200) stW).1 = true
      ∧ (handle_delegation envW inputW 1 0 (1/200) stW).2 = stW)
    ∧ isErrorReply (handle_delegation envW inputW 1 0 (30/100) stW).1 = false := by
  have hrej := (c3_delegation_reject_iff envW inputW 1 0 (1/200) stW)
  have hok := (c3_delegation_reject_iff envW inputW 1 0 (30/100) stW)
  have herr : isErrorReply (handle_delegation envW inputW 1 0 (1/200) stW).1 = true :=
    hrej.1.mpr (Or.inr (Or.inr (by decide)))
  refine ⟨⟨herr, hrej.2 herr⟩, ?_⟩
  by_cases h : isErrorReply (handle_delegation envW inputW 1 0 (30/100) stW).1 = true
  · rcases hok.1.mp h with hc | hc | hc
    · exact absurd hc (by decide)
    · exact absurd hc (by decide)
    · exact absurd hc (by decide)
  · simpa using h

/-! ## Cost cascade on child termination (C2) -/

/-- Claim C2: for a delegated child accepted by validation, after the child
run reaches its terminal state (the post-state st1 of the run seam) and
before its reply string is handed back to the parent conversation, the
child terminal token_cost read from the repository is added exactly once to
every ancestor in the parent chain — the final repository equals the
post-child repository with each chain member bumped by exactly that amount
and every other row untouched — and the reply reported to the parent is
computed from that already-cascaded cost.  Re-reading the child status is a
pure repository lookup in this model, so later reads cannot re-apply the
cascade.  The acyclicity hypotheses mirror the tree-shaped parent chains of
the real repository. -/
theorem c2_cascade_exactly_once (env : Env) (input : DelegateInput)
    (pid pdepth : Nat) (rem : Money) (st : LoopSt) (res : TaskResult) (st1 : LoopSt)
    (l : List Nat)
    (hd : pdepth + 1 ≤ MAX_DELEGATION_DEPTH)
    (hcnt : get_subtask_count st.db pid < MAX_SUBTASKS_PER_TASK)
    (hbud : MIN_SUBTASK_BUDGET ≤ clamp_subtask_budget input.budget_usd rem)
    (hrun : env.runSubtask
        (input.task_description ++ "\n\nExpected output: " ++ input.expected_output)
        pid pdepth (clamp_subtask_budget input.budget_usd rem) input.context_files st
        = (res, st1))
    (hchain : ParentChain st1.db res.task_id l) (hnd : l.Nodup)
    (hlen : l.length ≤ st1.db.length) :
    (handle_delegation env input pid pdepth rem st).2
      = { st1 with db := st1.db.map (fun t =>
            if t.id ∈ l
            then { t with token_cost := t.token_cost + read_token_cost st1.db res.task_id }
            else t) }
    ∧ (handle_delegation env input pid pdepth rem st).1
      = delegation_reply res (read_token_cost st1.db res.task_id) := by
  unfold handle_delegation
  rw [if_neg (not_lt.mpr hd), if_neg (not_le.mpr hcnt), if_neg (not_lt.mpr hbud)]
  simp only [hrun]
  constructor
  · show ({ st1 with db :=
        cascade_cost_to_parent st1.db res.task_id (read_token_cost st1.db res.task_id) }
        : LoopSt) = _
    rw [cascade_spec st1.db res.task_id _ l hchain hnd hlen]
  · trivial

/-- Closed witness for C2: a parent and child task, a child run spending
three cents, and the cascade bumping exactly the parent (chain [1]). -/
theorem c2_cascade_exactly_once_witness :
    (handle_delegation envW inputW 1 0 (1/2) stW).2
      = { stW1 with db := stW1.db.map (fun t =>
            if t.id ∈ [1]
            then { t with token_cost := t.token_cost + read_token_cost stW1.db 2 }
            else t) } :=
  (c2_cascade_exactly_once envW inputW 1 0 (1/2) stW resW stW1 [1]
    (by decide) (by decide) (by decide) rfl
    (ParentChain.step 2 { taskC with token_cost := 3/100 } 1 []
      (by decide) (by decide)
      (ParentChain.stop_root 1 taskP (by decide) (by decide)))
    (by decide) (by decide)).1

/-! ## Execution-loop unfolding lemmas -/

theorem runLoopAux_zero (env : Env) (cfg : LoopCfg) (msgs : List Msg) (fr : String)
    (pfr : Bool) (step : Nat) (resps : List RespOutcome) (st : LoopSt) :
    runLoopAux env cfg 0 msgs fr pfr step resps st
      = ((complete_exit cfg fr step st).1, resps, (complete_exit cfg fr step st).2) := rfl

theorem runLoopAux_succ (env : Env) (cfg : LoopCfg) (fuel : Nat) (msgs : List Msg)
    (fr : String) (pfr : Bool) (step : Nat) (resps : List RespOutcome) (st : LoopSt) :
    runLoopAux env cfg (fuel + 1) msgs fr pfr step resps st
      = match iterStep env cfg msgs fr pfr step resps st with
        | IterOut.exit res resps' st' => (res, resps', st')
        | IterOut.next msgs' fr' pfr' resps' st' =>
          runLoopAux env cfg fuel msgs' fr' pfr' (step + 1) resps' st' := rfl

theorem steps_by_depth_pos (d : Nat) : 0 < STEPS_BY_DEPTH d := by
  match d with
  | 0 => decide
  | 1 => decide
  | 2 => decide
  | d + 3 => exact (by decide : (0 : Nat) < 3)

theorem steps_by_depth_antitone (d : Nat) : STEPS_BY_DEPTH (d + 1) ≤ STEPS_BY_DEPTH d := by
  match d with
  | 0 => decide
  | 1 => decide
  | 2 => decide
  | d + 3 => exact Nat.le_refl _

/-- Reading a task through an id-preserving update. -/
theorem get_task_some_id {db : DB} {i : Nat} {t : Task}
    (h : get_task db i = some t) : t.id = i := by
  have := List.find?_some h
  simpa using this

/-- The budget guard only looks at token_cost, which the step_count update
preserves. -/
theorem budget_guard_transport (db : DB) (i : Nat) (f : Task → Task)
    (hid : ∀ x, (f x).id = x.id) (hcost : ∀ x, (f x).token_cost = x.token_cost)
    {t : Task} (h : get_task db i = some t) :
    ∃ t', get_task (update_task db i f) i = some t' ∧ t'.token_cost = t.token_cost := by
  rw [get_task_update db i i f hid, h]
  refine ⟨_, rfl, ?_⟩
  by_cases hcase : t.id = i
  · simp [hcase, hcost]
  · simp [hcase]

/-- Absence of a task survives id-preserving updates. -/
theorem get_task_none_transport (db : DB) (i : Nat) (f : Task → Task)
    (hid : ∀ x, (f x).id = x.id) (h : get_task db i = none) :
    get_task (update_task db i f) i = none := by
  rw [get_task_update db i i f hid, h]
  rfl

/-! ## Resource guards (C5) -/

/-- Claim C5: the two resource guards fire at the top of every loop
iteration, in source order, before the reasoning service is consulted.  If
the persisted token_cost exceeds the node budget, the loop returns a
stalled result with the budget diagnostic; otherwise, if the daily spend
exceeds the global ceiling, it returns a stalled result with the
daily-limit diagnostic.  In both cases the response stream is returned
untouched (no reasoning-service call happens in that iteration) and the
function returns — there is no retry path. -/
theorem c5_resource_guards (env : Env) (cfg : LoopCfg) (fuel : Nat) (msgs : List Msg)
    (fr : String) (pfr : Bool) (step : Nat) (resps : List RespOutcome) (st : LoopSt) :
    (∀ t, get_task st.db cfg.task_id = some t → cfg.budget < t.token_cost →
      runLoopAux env cfg (fuel + 1) msgs fr pfr step resps st
        = (⟨cfg.task_id, Status.stalled,
            "Task halted — budget (" ++ fmtUsd cfg.budget ++ ") exceeded. Spent "
              ++ fmtUsd t.token_cost ++ ".", false, "", none⟩,
           resps, stalled_budget_state cfg step st))
    ∧ ((∀ t, get_task st.db cfg.task_id = some t → ¬ cfg.budget < t.token_cost) →
        COST_LIMIT_DAILY < st.daily →
        runLoopAux env cfg (fuel + 1) msgs fr pfr step resps st
          = (⟨cfg.task_id, Status.stalled,
              "Daily budget limit (" ++ fmtUsd COST_LIMIT_DAILY ++ ") reached. Total today: "
                ++ fmtUsd st.daily ++ ".", false, "", none⟩,
             resps, stalled_daily_state cfg step st)) := by
  constructor
  · intro t ht hlt
    rw [runLoopAux_succ]
    obtain ⟨t2, hget2, hcost2⟩ := budget_guard_transport st.db cfg.task_id
      (fun x => { x with step_count := step + 1 }) (fun _ => rfl) (fun _ => rfl) ht
    unfold iterStep
    simp only [hget2]
    rw [hcost2, if_pos hlt]
    simp [stalled_budget_state]
  · intro hnb hdaily
    rw [runLoopAux_succ]
    have hdone : iterStep2 env cfg msgs fr pfr (step + 1) resps
        { st with db := (update_task st.db cfg.task_id (fun x => { x with step_count := step + 1 })) }
        = IterOut.exit
            ⟨cfg.task_id, Status.stalled,
              "Daily budget limit (" ++ fmtUsd COST_LIMIT_DAILY ++ ") reached. Total today: "
                ++ fmtUsd st.daily ++ ".", false, "", none⟩
            resps (stalled_daily_state cfg step st) := by
      unfold iterStep2
      rw [if_pos (by simpa using hdaily)]
      simp [stalled_daily_state]
    cases hbase : get_task st.db cfg.task_id with
    | none =>
      have hn := get_task_none_transport st.db cfg.task_id
        (fun x => { x with step_count := step + 1 }) (fun _ => rfl) hbase
      unfold iterStep
      simp only [hn, hdone]
    | some t0 =>
      obtain ⟨t2, hget2, hcost2⟩ := budget_guard_transport st.db cfg.task_id
        (fun x => { x with step_count := step + 1 }) (fun _ => rfl) (fun _ => rfl) hbase
      unfold iterStep
      simp only [hget2]
      rw [hcost2, if_neg (hnb t0 hbase)]
      simp only [hdone]

/-- Closed witness for C5: the budget guard fires for a task that spent 2
against a budget of 1, and the daily guard fires when the daily aggregate
stands at 25 against the 20 ceiling. -/
theorem c5_resource_guards_witness :
    runLoopAux envX cfgOver 1 [] "" false 0 [] stOver
      = (⟨3, Status.stalled,
          "Task halted — budget (" ++ fmtUsd 1 ++ ") exceeded. Spent "
            ++ fmtUsd 2 ++ ".", false, "", none⟩,
         [], stalled_budget_state cfgOver 0 stOver)
    ∧ runLoopAux envX cfgDaily 1 [] "" false 0 [] stDaily
      = (⟨1, Status.stalled,
          "Daily budget limit (" ++ fmtUsd COST_LIMIT_DAILY ++ ") reached. Total today: "
            ++ fmtUsd 25 ++ ".", false, "", none⟩,
         [], stalled_daily_state cfgDaily 0 stDaily) :=
  ⟨(c5_resource_guards envX cfgOver 0 [] "" false 0 [] stOver).1 taskOver
      (by decide) (by decide),
   (c5_resource_guards envX cfgDaily 0 [] "" false 0 [] stDaily).2
      (by intro t ht
          have hb : get_task stDaily.db cfgDaily.task_id = some task1 := by decide
          rw [hb] at ht
          cases ht
          decide)
      (by decide)⟩

/-! ## Planner first-response rule (C1) -/

/-- With no overspend recorded for this node, the budget guard passes and
one iteration proceeds to the daily guard over the step-updated state. -/
theorem iterStep_guards_pass (env : Env) (cfg : LoopCfg) (msgs : List Msg)
    (fr : String) (pfr : Bool) (step : Nat) (resps : List RespOutcome) (st : LoopSt)
    (hb : ∀ t, get_task st.db cfg.task_id = some t → ¬ cfg.budget < t.token_cost) :
    iterStep env cfg msgs fr pfr step resps st
      = iterStep2 env cfg msgs fr pfr (step + 1) resps
          { st with db := (update_task st.db cfg.task_id (fun x => { x with step_count := step + 1 })) } := by
  cases hbase : get_task st.db cfg.task_id with
  | none =>
    have hn := get_task_none_transport st.db cfg.task_id
      (fun x => { x with step_count := step + 1 }) (fun _ => rfl) hbase
    unfold iterStep
    simp only [hn]
  | some t0 =>
    obtain ⟨t2, hget2, hcost2⟩ := budget_guard_transport st.db cfg.task_id
      (fun x => { x with step_count := step + 1 }) (fun _ => rfl) (fun _ => rfl) hbase
    unfold iterStep
    simp only [hget2]
    rw [hcost2, if_neg (hb t0 hbase)]

/-- With the daily ceiling not yet reached, the pending response is
consumed and processed. -/
theorem iterStep2_ok (env : Env) (cfg : LoopCfg) (msgs : List Msg) (fr : String)
    (pfr : Bool) (step : Nat) (resp : ApiResponse) (rest : List RespOutcome)
    (st : LoopSt) (hd : ¬ COST_LIMIT_DAILY < st.daily) :
    iterStep2 env cfg msgs fr pfr step (RespOutcome.ok resp :: rest) st
      = iterStep3 env cfg msgs fr pfr step rest resp st := by
  unfold iterStep2
  rw [if_neg hd]

/-- Budget-guard hypotheses survive token-cost-preserving updates. -/
theorem budget_guard_preserved (db : DB) (i : Nat) (f : Task → Task) (b : Money)
    (hid : ∀ x, (f x).id = x.id) (hcost : ∀ x, (f x).token_cost = x.token_cost)
    (hb : ∀ t, get_task db i = some t → ¬ b < t.token_cost) :
    ∀ t, get_task (update_task db i f) i = some t → ¬ b < t.token_cost := by
  intro t ht
  cases hbase : get_task db i with
  | none =>
    rw [get_task_none_transport db i f hid hbase] at ht
    exact Option.noConfusion ht
  | some t0 =>
    obtain ⟨t2, hget2, hcost2⟩ := budget_guard_transport db i f hid hcost hbase
    rw [hget2] at ht
    cases ht
    rw [hcost2]
    exact hb t0 hbase

/-- Processing the very first planner response when it carries both text
and tool requests: the assistant turn is appended and the iteration exits
as a checkpoint carrying the full conversation, without touching the
environment. -/
theorem iterStep3_planner_checkpoint (env : Env) (cfg : LoopCfg) (msgs : List Msg)
    (step : Nat) (rest : List RespOutcome) (resp : ApiResponse) (st : LoopSt)
    (hfr : String.intercalate "\n" (partText resp.content) ≠ "")
    (htools : partTools resp.content ≠ []) :
    iterStep3 env cfg msgs "" true step rest resp st
      = IterOut.exit
          ⟨cfg.task_id, Status.checkpoint,
            String.intercalate "\n" (partText resp.content), true,
            "Plan ready for approval", some (msgs ++ [Msg.assistant resp.content])⟩
          rest
          (let st2 := log_cost st cfg.task_id resp.input_tokens resp.output_tokens
            (calculate_cost cfg.model resp.input_tokens resp.output_tokens)
           { st2 with db := update_task st2.db cfg.task_id (fun t =>
             { t with status := Status.checkpoint }) }) := by
  have htne : partText resp.content ≠ [] := by
    intro h
    exact hfr (by rw [h]; rfl)
  have h1 : (partText resp.content).isEmpty = false := by simpa using htne
  have h3 : (String.intercalate "\n" (partText resp.content)).isEmpty = false := by
    rw [Bool.eq_false_iff]
    intro h
    exact hfr ((String.isEmpty_iff _).mp h)
  have h4 : (partTools resp.content).isEmpty = false := by simpa using htools
  unfold iterStep3
  simp only [h1, h3, h4, Bool.not_false, Bool.and_true, if_false, Bool.false_eq_true,
    ite_false, if_true, ite_true]

/-- One loop iteration of a fresh planner (planner-first flag up, no text
accumulated) on a response with text and tool requests: guards pass, the
response is consumed, and the iteration returns the plan-ready checkpoint. -/
theorem planner_first_checkpoint_core (env : Env) (cfg : LoopCfg) (fuel step : Nat)
    (msgs : List Msg) (rest : List RespOutcome) (resp : ApiResponse) (st : LoopSt)
    (hb : ∀ t, get_task st.db cfg.task_id = some t → ¬ cfg.budget < t.token_cost)
    (hd : ¬ COST_LIMIT_DAILY < st.daily)
    (hfr : String.intercalate "\n" (partText resp.content) ≠ "")
    (htools : partTools resp.content ≠ []) :
    runLoopAux env cfg (fuel + 1) msgs "" true step (RespOutcome.ok resp :: rest) st
      = (⟨cfg.task_id, Status.checkpoint,
          String.intercalate "\n" (partText resp.content), true,
          "Plan ready for approval", some (msgs ++ [Msg.assistant resp.content])⟩,
         rest, planner_checkpoint_state cfg resp step st) := by
  rw [runLoopAux_succ]
  rw [iterStep_guards_pass env cfg msgs "" true step _ st hb]
  rw [iterStep2_ok env cfg msgs "" true (step + 1) resp rest _ (by simpa using hd)]
  rw [iterStep3_planner_checkpoint env cfg msgs (step + 1) rest resp _ hfr htools]
  rfl

/-- Claim C1 counterexample: a fresh planner whose very first response
contains a tool-invocation request (and no text block) does not checkpoint:
the run completes, and the requested tool is executed (the marker task 99
was bumped by the tool executor).  This falsifies the claim that the first
planner response is never executed whenever it contains tool requests. -/
theorem c1_counterexample :
    partTools respToolOnly.content ≠ []
      ∧ c1run.1.status = Status.completed
      ∧ c1run.1.needs_checkpoint = false
      ∧ get_task c1run.2.2.db 99 = some { task99 with token_cost := 1 } := by
  refine ⟨by decide, by decide, by decide, by decide⟩

/-- Claim C1 (amended): for a planner started without a pre-existing
conversation, when the very first response contains tool-invocation
requests AND at least one non-empty text block, the loop appends the
assistant turn to the conversation, persists the checkpoint status, and
returns a checkpoint outcome with reason "Plan ready for approval"
carrying the full conversation; the returned state is an explicit
expression not involving the tool environment, so no requested tool is
executed before that return, and the remaining responses are untouched.
(If the first response has no text, the source skips the checkpoint and
executes the tools — see the counterexample.) -/
theorem c1_planner_first_checkpoint (env : Env) (task_id : Nat) (desc : String)
    (depth : Nat) (budget : Money) (resp : ApiResponse) (rest : List RespOutcome)
    (st : LoopSt)
    (hb : ∀ t, get_task st.db task_id = some t → ¬ budget < t.token_cost)
    (hd : ¬ COST_LIMIT_DAILY < st.daily)
    (hfr : String.intercalate "\n" (partText resp.content) ≠ "")
    (htools : partTools resp.content ≠ []) :
    run_agent_loop env task_id desc depth budget Role.planner none none
        (RespOutcome.ok resp :: rest) st
      = (⟨task_id, Status.checkpoint,
          String.intercalate "\n" (partText resp.content), true,
          "Plan ready for approval",
          some (initial_messages env desc depth none none ++ [Msg.assistant resp.content])⟩,
         rest,
         planner_checkpoint_state (planner_cfg task_id desc depth budget) resp 0
           (mark_in_progress task_id ModelId.sonnetLatest st)) := by
  obtain ⟨k, hk⟩ : ∃ k, STEPS_BY_DEPTH depth = k + 1 :=
    ⟨STEPS_BY_DEPTH depth - 1, by have := steps_by_depth_pos depth; omega⟩
  have hb2 : ∀ t,
      get_task (mark_in_progress task_id ModelId.sonnetLatest st).db task_id = some t →
      ¬ budget < t.token_cost :=
    budget_guard_preserved st.db task_id _ budget (fun _ => rfl) (fun _ => rfl) hb
  have hcore := planner_first_checkpoint_core env
    (planner_cfg task_id desc depth budget) k 0
    (initial_messages env desc depth none none) rest resp
    (mark_in_progress task_id ModelId.sonnetLatest st) hb2 (by simpa using hd) hfr htools
  unfold run_agent_loop
  rw [hk]
  exact hcore

/-- Closed witness for C1 (amended): a concrete planner whose first
response carries a plan text and a delegation request checkpoints with the
plan-ready reason and the full conversation. -/
theorem c1_planner_first_checkpoint_witness :
    run_agent_loop envX 1 "plan stuff" 0 1 Role.planner none none
        [RespOutcome.ok respPlanTool] st0
      = (⟨1, Status.checkpoint,
          String.intercalate "\n" (partText respPlanTool.content), true,
          "Plan ready for approval",
          some (initial_messages envX "plan stuff" 0 none none
            ++ [Msg.assistant respPlanTool.content])⟩,
         [],
         planner_checkpoint_state (planner_cfg 1 "plan stuff" 0 1) respPlanTool 0
           (mark_in_progress 1 ModelId.sonnetLatest st0)) :=
  c1_planner_first_checkpoint envX 1 "plan stuff" 0 1 respPlanTool [] st0
    (by intro t ht
        have hb : get_task st0.db 1 = some task1 := by decide
        rw [hb] at ht
        cases ht
        decide)
    (by decide) (by decide) (by decide)

/-! ## Checkpoint / resume round trip (C6) -/

/-- Claim C6 counterexample: the uncertainty checkpoint of a root worker
returns a checkpoint outcome whose conversation_history is none — a
checkpoint outcome that does not carry the conversation captured at
suspension, falsifying "every checkpoint outcome carries the resumable
conversation". -/
theorem c6_counterexample :
    c6run.1.status = Status.checkpoint
      ∧ c6run.1.needs_checkpoint = true
      ∧ c6run.1.checkpoint_reason = "Claude expressed uncertainty"
      ∧ c6run.1.conversation_history = none := by
  refine ⟨by decide, by decide, by decide, by decide⟩

/-- Claim C6 (amended): planner (plan-ready) checkpoints carry the full
conversation at suspension (see the C1 theorem, whose checkpoint outcome
carries msgs plus the assistant turn), and resuming from a non-empty
preserved conversation T restarts the loop with conversation exactly T —
no turn dropped, reordered or re-derived — with the planner-first flag
down; uncertainty checkpoints carry no conversation.  The round trip
resume(checkpoint(turns=T)) therefore starts from exactly T. -/
theorem c6_resume_round_trip (env : Env) (task_id : Nat) (T : List Msg)
    (budget : Money) (resps : List RespOutcome) (st : LoopSt) (t : Task)
    (hT : T ≠ []) (hfound : get_task st.db task_id = some t) :
    continue_task env task_id T budget resps st
      = runLoopAux env
          { task_id := task_id, description := t.description, depth := 0,
            budget := budget, role := Role.planner, hadHistory := true,
            model := ModelId.sonnetLatest }
          (STEPS_BY_DEPTH 0) T "" false 0 resps
          (mark_in_progress task_id ModelId.sonnetLatest
            { st with db := update_task st.db task_id (fun x =>
                { x with status := Status.in_progress }) })
    ∧ initial_messages env t.description 0 (some T) none = T := by
  have htr : truthyOpt (some T) = true := by
    unfold truthyOpt
    simp [hT]
  have hmsgs : initial_messages env t.description 0 (some T) none = T := by
    unfold initial_messages
    rw [htr]
    rfl
  refine ⟨?_, hmsgs⟩
  have h1 : continue_task env task_id T budget resps st
      = run_agent_loop env task_id t.description 0 budget Role.planner (some T) none resps
          { st with db := (update_task st.db task_id (fun x => { x with status := Status.in_progress })) } := by
    unfold continue_task
    rw [hfound]
  rw [h1]
  unfold run_agent_loop
  rw [hmsgs, htr]
  rfl

/-- Closed witness for C6 (amended): resuming a two-turn conversation
starts the loop from exactly those two turns. -/
theorem c6_resume_round_trip_witness :
    continue_task envX 1 [Msg.user "plan stuff", Msg.assistant [Block.text "the plan"]]
        1 [] st0
      = runLoopAux envX
          { task_id := 1, description := "plan stuff", depth := 0, budget := 1,
            role := Role.planner, hadHistory := true, model := ModelId.sonnetLatest }
          (STEPS_BY_DEPTH 0)
          [Msg.user "plan stuff", Msg.assistant [Block.text "the plan"]] "" false 0 []
          (mark_in_progress 1 ModelId.sonnetLatest
            { st0 with db := update_task st0.db 1 (fun x =>
                { x with status := Status.in_progress }) }) :=
  (c6_resume_round_trip envX 1
    [Msg.user "plan stuff", Msg.assistant [Block.text "the plan"]] 1 [] st0 task1
    (by decide) (by decide)).1

/-! ## Step ceiling and exhaustion (C7) -/

theorem iterStep4_resps (env : Env) (cfg : LoopCfg) (msgs : List Msg) (fr : String)
    (pfr : Bool) (step : Nat) (rest : List RespOutcome) (resp : ApiResponse) (st : LoopSt) :
    iterOutResps (iterStep4 env cfg msgs fr pfr step rest resp st) = rest := by
  unfold iterStep4
  by_cases hbr : (decide (resp.stop_reason = StopReason.end_turn)
      || (partTools resp.content).isEmpty) = true
  · rw [if_pos hbr]
    rfl
  · rw [if_neg hbr]
    dsimp only
    split
    · rfl
    · split
      · rfl
      · rfl

theorem iterStep3_resps (env : Env) (cfg : LoopCfg) (msgs : List Msg) (fr : String)
    (pfr : Bool) (step : Nat) (rest : List RespOutcome) (resp : ApiResponse) (st : LoopSt) :
    iterOutResps (iterStep3 env cfg msgs fr pfr step rest resp st) = rest := by
  unfold iterStep3
  dsimp only
  repeat' split
  all_goals first
  | rfl
  | rw [iterStep4_resps]

theorem iterStep_resps_le (env : Env) (cfg : LoopCfg) (msgs : List Msg) (fr : String)
    (pfr : Bool) (step : Nat) (resps : List RespOutcome) (st : LoopSt) :
    resps.length ≤ (iterOutResps (iterStep env cfg msgs fr pfr step resps st)).length + 1 := by
  have h2 : ∀ (st2 : LoopSt),
      resps.length
        ≤ (iterOutResps (iterStep2 env cfg msgs fr pfr (step + 1) resps st2)).length + 1 := by
    intro st2
    unfold iterStep2
    dsimp only
    split
    · simp [iterOutResps]
    · match resps with
      | [] => simp [iterOutResps]
      | RespOutcome.fault e :: rest => simp [iterOutResps]
      | RespOutcome.ok r :: rest =>
        rw [iterStep3_resps]
        simp
  unfold iterStep
  dsimp only
  split
  · split
    · simp [iterOutResps]
    · exact h2 _
  · exact h2 _

theorem runLoopAux_resps_le (env : Env) (cfg : LoopCfg) :
    ∀ (fuel : Nat) (msgs : List Msg) (fr : String) (pfr : Bool) (step : Nat)
      (resps : List RespOutcome) (st : LoopSt),
    resps.length ≤ (runLoopAux env cfg fuel msgs fr pfr step resps st).2.1.length + fuel := by
  intro fuel
  induction fuel with
  | zero =>
    intro msgs fr pfr step resps st
    rw [runLoopAux_zero]
    simp
  | succ k ih =>
    intro msgs fr pfr step resps st
    rw [runLoopAux_succ]
    cases hit : iterStep env cfg msgs fr pfr step resps st with
    | exit res resps2 st2 =>
      have h1 := iterStep_resps_le env cfg msgs fr pfr step resps st
      rw [hit] at h1
      simp only [iterOutResps] at h1
      simp only []
      omega
    | next msgs2 fr2 pfr2 resps2 st2 =>
      have h1 := iterStep_resps_le env cfg msgs fr pfr step resps st
      rw [hit] at h1
      simp only [iterOutResps] at h1
      have h2 := ih msgs2 fr2 pfr2 (step + 1) resps2 st2
      simp only []
      omega

/-- Claim C7: (a) every node run consumes at most STEPS_BY_DEPTH depth
responses from its reasoning-service stream — each loop iteration consumes
at most one, and the loop runs at most that many iterations; (b) when the
step ceiling is exhausted (remaining fuel 0), the loop falls out into the
completed branch and returns status completed carrying exactly the last
accumulated text, with no checkpoint flag — step exhaustion alone never
yields failed, stalled, or checkpoint; (c) the per-depth ceiling is
non-increasing in depth (20, 10, 6, then 3 for all deeper nodes). -/
theorem c7_step_bound :
    (∀ (env : Env) (task_id : Nat) (desc : String) (depth : Nat) (budget : Money)
        (role : Role) (hist : Option (List Msg)) (ctx : Option (List String))
        (resps : List RespOutcome) (st : LoopSt),
      resps.length
        ≤ (run_agent_loop env task_id desc depth budget role hist ctx resps st).2.1.length
            + STEPS_BY_DEPTH depth)
    ∧ (∀ (env : Env) (cfg : LoopCfg) (msgs : List Msg) (fr : String) (pfr : Bool)
        (step : Nat) (resps : List RespOutcome) (st : LoopSt),
        (runLoopAux env cfg 0 msgs fr pfr step resps st).1.status = Status.completed
          ∧ (runLoopAux env cfg 0 msgs fr pfr step resps st).1.response = fr
          ∧ (runLoopAux env cfg 0 msgs fr pfr step resps st).1.needs_checkpoint = false
          ∧ (runLoopAux env cfg 0 msgs fr pfr step resps st).2.1 = resps)
    ∧ (∀ d : Nat, STEPS_BY_DEPTH (d + 1) ≤ STEPS_BY_DEPTH d) := by
  refine ⟨?_, ?_, steps_by_depth_antitone⟩
  · intro env task_id desc depth budget role hist ctx resps st
    unfold run_agent_loop
    exact runLoopAux_resps_le env _ (STEPS_BY_DEPTH depth) _ "" _ 0 resps _
  · intro env cfg msgs fr pfr step resps st
    rw [runLoopAux_zero]
    exact ⟨rfl, rfl, rfl, rfl⟩

/-! ## Status / result agreement (C10) -/

theorem complete_exit_agrees (cfg : LoopCfg) (fr : String) (step : Nat) (st : LoopSt) :
    ∀ t ∈ (complete_exit cfg fr step st).2.db, t.id = cfg.task_id →
      t.status = (complete_exit cfg fr step st).1.status := by
  unfold complete_exit
  dsimp only
  split
  · exact status_after_update (fun _ => rfl) (fun _ => rfl)
  · exact status_after_update (fun _ => rfl) (fun _ => rfl)

theorem exception_exit_agrees (cfg : LoopCfg) (msg : String) (st : LoopSt) :
    ∀ t ∈ (exception_exit cfg msg st).2.db, t.id = cfg.task_id →
      t.status = (exception_exit cfg msg st).1.status := by
  unfold exception_exit
  exact status_after_update (fun _ => rfl) (fun _ => rfl)

theorem iterStep4_status_agrees (env : Env) (cfg : LoopCfg) (msgs : List Msg)
    (fr : String) (pfr : Bool) (step : Nat) (rest : List RespOutcome)
    (resp : ApiResponse) (st : LoopSt) :
    ∀ res resps2 st2, iterStep4 env cfg msgs fr pfr step rest resp st = IterOut.exit res resps2 st2 →
      ∀ t ∈ st2.db, t.id = cfg.task_id → t.status = res.status := by
  intro res resps2 st2 h
  unfold iterStep4 at h
  dsimp only at h
  repeat' split at h
  all_goals first
  | exact IterOut.noConfusion h
  | (cases h
     first
     | exact complete_exit_agrees _ _ _ _
     | exact exception_exit_agrees _ _ _
     | exact status_after_update (fun _ => rfl) (fun _ => rfl))

theorem iterStep3_status_agrees (env : Env) (cfg : LoopCfg) (msgs : List Msg)
    (fr : String) (pfr : Bool) (step : Nat) (rest : List RespOutcome)
    (resp : ApiResponse) (st : LoopSt) :
    ∀ res resps2 st2, iterStep3 env cfg msgs fr pfr step rest resp st = IterOut.exit res resps2 st2 →
      ∀ t ∈ st2.db, t.id = cfg.task_id → t.status = res.status := by
  intro res resps2 st2 h
  unfold iterStep3 at h
  dsimp only at h
  repeat' (first
    | exact IterOut.noConfusion h
    | (exact iterStep4_status_agrees env cfg _ _ _ _ _ _ _ res resps2 st2 h)
    | (cases h
       exact status_after_update (fun _ => rfl) (fun _ => rfl))
    | split at h)

theorem iterStep2_status_agrees (env : Env) (cfg : LoopCfg) (msgs : List Msg)
    (fr : String) (pfr : Bool) (step : Nat) (resps : List RespOutcome) (st : LoopSt) :
    ∀ res resps2 st2, iterStep2 env cfg msgs fr pfr step resps st = IterOut.exit res resps2 st2 →
      ∀ t ∈ st2.db, t.id = cfg.task_id → t.status = res.status := by
  intro res resps2 st2 h
  unfold iterStep2 at h
  dsimp only at h
  repeat' (first
    | exact IterOut.noConfusion h
    | (exact iterStep3_status_agrees env cfg _ _ _ _ _ _ _ res resps2 st2 h)
    | (cases h
       first
       | exact exception_exit_agrees _ _ _
       | exact status_after_update (fun _ => rfl) (fun _ => rfl))
    | split at h)

theorem iterStep_status_agrees (env : Env) (cfg : LoopCfg) (msgs : List Msg)
    (fr : String) (pfr : Bool) (step : Nat) (resps : List RespOutcome) (st : LoopSt) :
    ∀ res resps2 st2, iterStep env cfg msgs fr pfr step resps st = IterOut.exit res resps2 st2 →
      ∀ t ∈ st2.db, t.id = cfg.task_id → t.status = res.status := by
  intro res resps2 st2 h
  unfold iterStep at h
  dsimp only at h
  repeat' (first
    | exact IterOut.noConfusion h
    | (exact iterStep2_status_agrees env cfg _ _ _ _ _ _ res resps2 st2 h)
    | (cases h
       exact status_after_update (fun _ => rfl) (fun _ => rfl))
    | split at h)

theorem runLoopAux_status_agrees (env : Env) (cfg : LoopCfg) :
    ∀ (fuel : Nat) (msgs : List Msg) (fr : String) (pfr : Bool) (step : Nat)
      (resps : List RespOutcome) (st : LoopSt),
    ∀ t ∈ (runLoopAux env cfg fuel msgs fr pfr step resps st).2.2.db,
      t.id = cfg.task_id →
      t.status = (runLoopAux env cfg fuel msgs fr pfr step resps st).1.status := by
  intro fuel
  induction fuel with
  | zero =>
    intro msgs fr pfr step resps st
    rw [runLoopAux_zero]
    exact complete_exit_agrees cfg fr step st
  | succ k ih =>
    intro msgs fr pfr step resps st
    rw [runLoopAux_succ]
    cases hit : iterStep env cfg msgs fr pfr step resps st with
    | exit res resps2 st2 =>
      exact iterStep_status_agrees env cfg msgs fr pfr step resps st res resps2 st2 hit
    | next msgs2 fr2 pfr2 resps2 st2 =>
      exact ih msgs2 fr2 pfr2 (step + 1) resps2 st2

/-- Claim C10: on every return path of the execution loop — budget stall,
daily stall, planner checkpoint, uncertainty checkpoint, completion, step
exhaustion, and the exception boundary (a reasoning-service fault or a
malformed delegation payload) — the status persisted on the task row
matches the status of the returned TaskResult, so the stored audit row and
the in-process outcome never disagree. -/
theorem c10_status_agrees (env : Env) (task_id : Nat) (desc : String) (depth : Nat)
    (budget : Money) (role : Role) (hist : Option (List Msg))
    (ctx : Option (List String)) (resps : List RespOutcome) (st : LoopSt) :
    ∀ t ∈ (run_agent_loop env task_id desc depth budget role hist ctx resps st).2.2.db,
      t.id = task_id →
      t.status = (run_agent_loop env task_id desc depth budget role hist ctx resps st).1.status := by
  unfold run_agent_loop
  exact runLoopAux_status_agrees env _ (STEPS_BY_DEPTH depth) _ "" _ 0 resps _

/-- Closed witness for C10: a run that stalls on the budget guard leaves
task 3 with the same stalled status as the returned result. -/
theorem c10_status_agrees_witness :
    taskStalled ∈ (run_agent_loop envX 3 "over" 0 1 Role.worker none none [] stOver).2.2.db
      ∧ taskStalled.status
          = (run_agent_loop envX 3 "over" 0 1 Role.worker none none [] stOver).1.status :=
  have hg : get_task (run_agent_loop envX 3 "over" 0 1 Role.worker none none [] stOver).2.2.db 3
      = some taskStalled := by decide
  ⟨List.mem_of_find?_eq_some hg,
   c10_status_agrees envX 3 "over" 0 1 Role.worker none none [] stOver taskStalled
     (List.mem_of_find?_eq_some hg) (by decide)⟩

/-! ## Loop exit and tool dispatch (C4) -/

/-- Claim C4 counterexample: a response that requests a tool but signals
end_turn makes the loop exit with the accumulated text as a completed
result, without executing the requested tool (marker task 99 untouched) —
so the loop does not exit only when no tools were requested. -/
theorem c4_counterexample :
    partTools respEndTurnWithTool.content ≠ []
      ∧ respEndTurnWithTool.stop_reason = StopReason.end_turn
      ∧ c4run.1.status = Status.completed
      ∧ c4run.1.response = "hi"
      ∧ (get_task c4run.2.2.db 99).map Task.token_cost = some 0 := by
  refine ⟨by decide, by decide, by decide, by decide, by decide⟩

theorem iterStep4_exit_completed_iff (env : Env) (cfg : LoopCfg) (msgs : List Msg)
    (fr : String) (pfr : Bool) (step : Nat) (rest : List RespOutcome)
    (resp : ApiResponse) (st : LoopSt) :
    (∃ res resps2 st2,
      iterStep4 env cfg msgs fr pfr step rest resp st = IterOut.exit res resps2 st2
        ∧ res.status = Status.completed ∧ res.response = fr)
      ↔ (resp.stop_reason = StopReason.end_turn ∨ partTools resp.content = []) := by
  constructor
  · rintro ⟨res, resps2, st2, hexit, hstat, hresp⟩
    by_cases hc : resp.stop_reason = StopReason.end_turn ∨ partTools resp.content = []
    · exact hc
    · exfalso
      have hbool : (decide (resp.stop_reason = StopReason.end_turn)
          || (partTools resp.content).isEmpty) = false := by
        push_neg at hc
        simp [hc.1, hc.2]
      unfold iterStep4 at hexit
      rw [if_neg (by simp [hbool])] at hexit
      dsimp only at hexit
      split at hexit
      · cases hexit
        exact Status.noConfusion hstat
      · split at hexit
        · cases hexit
          exact Status.noConfusion hstat
        · exact IterOut.noConfusion hexit
  · intro hc
    have hbool : (decide (resp.stop_reason = StopReason.end_turn)
        || (partTools resp.content).isEmpty) = true := by
      rcases hc with h | h
      · simp [h]
      · simp [h]
    refine ⟨(complete_exit cfg fr step st).1, rest, (complete_exit cfg fr step st).2, ?_, rfl, rfl⟩
    unfold iterStep4
    rw [if_pos hbool]

theorem runTools_ids (env : Env) (cfg : LoopCfg) :
    ∀ (tus : List ToolUse) (acc : List (String × String)) (st : LoopSt)
      (res : List (String × String)) (st2 : LoopSt),
      runTools env cfg tus acc st = (Except.ok res, st2) →
      res.map Prod.fst = acc.map Prod.fst ++ tus.map ToolUse.id := by
  intro tus
  induction tus with
  | nil =>
    intro acc st res st2 h
    unfold runTools at h
    cases h
    simp
  | cons tu rest ih =>
    intro acc st res st2 h
    unfold runTools at h
    dsimp only at h
    split at h
    · split at h
      · have := ih _ _ _ _ h
        rw [this]
        simp
      · exact Prod.noConfusion h (fun h1 _ => Except.noConfusion h1)
    · have := ih _ _ _ _ h
      rw [this]
      simp

theorem runTools_delegation_step (env : Env) (cfg : LoopCfg) (d : DelegateInput)
    (tu : ToolUse) (tus : List ToolUse) (acc : List (String × String)) (st : LoopSt)
    (hname : tu.name = "delegate_task") (harg : tu.arg = ToolArg.delegation d) :
    runTools env cfg (tu :: tus) acc st
      = runTools env cfg tus
          (acc ++ [(tu.id, (handle_delegation env d cfg.task_id cfg.depth
              (cfg.budget - read_token_cost st.db cfg.task_id) st).1)])
          (handle_delegation env d cfg.task_id cfg.depth
              (cfg.budget - read_token_cost st.db cfg.task_id) st).2 := by
  conv_lhs => unfold runTools
  rw [if_pos hname, harg]

theorem runTools_other_step (env : Env) (cfg : LoopCfg) (tu : ToolUse)
    (tus : List ToolUse) (acc : List (String × String)) (st : LoopSt)
    (hname : tu.name ≠ "delegate_task") :
    runTools env cfg (tu :: tus) acc st
      = runTools env cfg tus (acc ++ [(tu.id, (env.execTool tu.name tu.arg st).1)])
          (env.execTool tu.name tu.arg st).2 := by
  conv_lhs => unfold runTools
  rw [if_neg hname]

theorem iterStep4_combined_turn (env : Env) (cfg : LoopCfg) (msgs : List Msg)
    (fr : String) (pfr : Bool) (step : Nat) (rest : List RespOutcome)
    (resp : ApiResponse) (st : LoopSt) (res : List (String × String)) (st2 : LoopSt)
    (hnb : ¬ (resp.stop_reason = StopReason.end_turn ∨ partTools resp.content = []))
    (hok : runTools env cfg (partTools resp.content) [] st = (Except.ok res, st2))
    (hnu : ¬ (cfg.depth = 0 ∧ cfg.role = Role.worker ∧ fr ≠ "" ∧ should_checkpoint fr = true)) :
    iterStep4 env cfg msgs fr pfr step rest resp st
      = IterOut.next
          ((if cfg.role = Role.planner && step = 1 && !cfg.hadHistory then msgs
            else msgs ++ [Msg.assistant resp.content]) ++ [Msg.userToolResults res])
          fr pfr rest st2 := by
  have hbool : (decide (resp.stop_reason = StopReason.end_turn)
      || (partTools resp.content).isEmpty) = false := by
    push_neg at hnb
    simp [hnb.1, hnb.2]
  have hucond : (decide (cfg.depth = 0) && decide (cfg.role = Role.worker)
      && !fr.isEmpty && should_checkpoint fr) = false := by
    by_cases h1 : cfg.depth = 0
    · by_cases h2 : cfg.role = Role.worker
      · by_cases h3 : fr = ""
        · simp [h1, h2, h3]
          intro habs
          exact absurd habs (by decide)
        · by_cases h4 : should_checkpoint fr = true
          · exact absurd ⟨h1, h2, h3, h4⟩ hnu
          · simp [h1, h2, h3, Bool.eq_false_iff.mpr h4]
      · simp [h2]
    · simp [h1]
  unfold iterStep4
  rw [if_neg (by simp [hbool])]
  dsimp only
  rw [hok]
  dsimp only
  rw [if_neg (by simp [hucond])]

/-- Claim C4 (amended): within an iteration, the loop exits into the
completed branch with the accumulated text exactly when the response
signals end_turn or requests no tools (not only when both no-tools and
completion hold — see the counterexample); otherwise every requested tool
is executed sequentially in request order (the result list carries the
request ids in order, with state threaded left to right), a delegate_task
request routes to handle_delegation with the freshly-read remaining
budget, every other request routes to the tool executor, and all results
are appended as one combined tool-results turn. -/
theorem c4_tool_dispatch :
    (∀ (env : Env) (cfg : LoopCfg) (msgs : List Msg) (fr : String) (pfr : Bool)
        (step : Nat) (rest : List RespOutcome) (resp : ApiResponse) (st : LoopSt),
      (∃ res resps2 st2,
        iterStep4 env cfg msgs fr pfr step rest resp st = IterOut.exit res resps2 st2
          ∧ res.status = Status.completed ∧ res.response = fr)
        ↔ (resp.stop_reason = StopReason.end_turn ∨ partTools resp.content = []))
    ∧ (∀ (env : Env) (cfg : LoopCfg) (tus : List ToolUse) (acc : List (String × String))
        (st : LoopSt) (res : List (String × String)) (st2 : LoopSt),
        runTools env cfg tus acc st = (Except.ok res, st2) →
        res.map Prod.fst = acc.map Prod.fst ++ tus.map ToolUse.id)
    ∧ (∀ (env : Env) (cfg : LoopCfg) (d : DelegateInput) (tu : ToolUse)
        (tus : List ToolUse) (acc : List (String × String)) (st : LoopSt),
        tu.name = "delegate_task" → tu.arg = ToolArg.delegation d →
        runTools env cfg (tu :: tus) acc st
          = runTools env cfg tus
              (acc ++ [(tu.id, (handle_delegation env d cfg.task_id cfg.depth
                  (cfg.budget - read_token_cost st.db cfg.task_id) st).1)])
              (handle_delegation env d cfg.task_id cfg.depth
                  (cfg.budget - read_token_cost st.db cfg.task_id) st).2)
    ∧ (∀ (env : Env) (cfg : LoopCfg) (tu : ToolUse) (tus : List ToolUse)
        (acc : List (String × String)) (st : LoopSt),
        tu.name ≠ "delegate_task" →
        runTools env cfg (tu :: tus) acc st
          = runTools env cfg tus (acc ++ [(tu.id, (env.execTool tu.name tu.arg st).1)])
              (env.execTool tu.name tu.arg st).2)
    ∧ (∀ (env : Env) (cfg : LoopCfg) (msgs : List Msg) (fr : String) (pfr : Bool)
        (step : Nat) (rest : List RespOutcome) (resp : ApiResponse) (st : LoopSt)
        (res : List (String × String)) (st2 : LoopSt),
        ¬ (resp.stop_reason = StopReason.end_turn ∨ partTools resp.content = []) →
        runTools env cfg (partTools resp.content) [] st = (Except.ok res, st2) →
        ¬ (cfg.depth = 0 ∧ cfg.role = Role.worker ∧ fr ≠ "" ∧ should_checkpoint fr = true) →
        iterStep4 env cfg msgs fr pfr step rest resp st
          = IterOut.next
              ((if cfg.role = Role.planner && step = 1 && !cfg.hadHistory then msgs
                else msgs ++ [Msg.assistant resp.content]) ++ [Msg.userToolResults res])
              fr pfr rest st2) :=
  ⟨iterStep4_exit_completed_iff, runTools_ids,
   fun env cfg d tu tus acc st hname harg =>
     runTools_delegation_step env cfg d tu tus acc st hname harg,
   fun env cfg tu tus acc st hname =>
     runTools_other_step env cfg tu tus acc st hname,
   fun env cfg msgs fr pfr step rest resp st res st2 hnb hok hnu =>
     iterStep4_combined_turn env cfg msgs fr pfr step rest resp st res st2 hnb hok hnu⟩

/-- Closed witness for C4: the end_turn response exits completed with the
accumulated text at a concrete input, and a non-delegate tool request
routes one step to the tool executor. -/
theorem c4_tool_dispatch_witness :
    (∃ res resps2 st2,
      iterStep4 envX cfgOver [] "hi" false 1 [] respEndTurnWithTool st0
          = IterOut.exit res resps2 st2
        ∧ res.status = Status.completed ∧ res.response = "hi")
    ∧ runTools envX cfgOver [⟨"t1", "read_file", ToolArg.other "x"⟩] [] st0
        = runTools envX cfgOver []
            [("t1", (envX.execTool "read_file" (ToolArg.other "x") st0).1)]
            (envX.execTool "read_file" (ToolArg.other "x") st0).2 :=
  ⟨(c4_tool_dispatch.1 envX cfgOver [] "hi" false 1 [] respEndTurnWithTool st0).mpr
     (Or.inl rfl),
   c4_tool_dispatch.2.2.2.1 envX cfgOver ⟨"t1", "read_file", ToolArg.other "x"⟩ [] [] st0
     (by decide)⟩

end ClaudeBot
